import Mathlib

/-!
Verification of the Hindenburg server core against its specification.

The development shallowly embeds the TypeScript sources:
  * `src/api/chat/CommandHander.ts` — chat-command tokenizer, usage parser,
    argument binder and dispatcher;
  * `src/Worker.ts` — reliability layer (nonce/ack/retransmit), connection
    registry, mod-policy check and host-only root-message guards.
Strings are embedded as `List Char` (JS strings are char sequences), JS `Map`s
as association lists in insertion order, and side effects (UDP sends,
disconnects, broadcasts) as explicit effect lists.
-/

namespace Hindenburg

/-! ## Chat commands: `src/api/chat/CommandHander.ts` -/

/-- `ChatCommandParameter` from CommandHander.ts: `{isRest; required; name}`. -/
structure ChatCommandParameter where
  isRest : Bool
  required : Bool
  name : List Char
deriving DecidableEq

/-- Loop of `betterSplitOnSpaces`: single quotes toggle in-string mode, space
outside a string ends the current token (possibly empty); the final collector
is appended only when non-empty. -/
def betterSplitGo : List Char → List Char → List (List Char) → Bool → List (List Char)
  | [], collector, output, _ =>
      if collector = [] then output else output ++ [collector]
  | ch :: rest, collector, output, inString =>
      if ch = '\'' then betterSplitGo rest collector output (!inString)
      else if ch = ' ' ∧ inString = false then
        betterSplitGo rest [] (output ++ [collector]) inString
      else betterSplitGo rest (collector ++ [ch]) output inString

/-- `betterSplitOnSpaces` from CommandHander.ts. -/
def betterSplitOnSpaces (input : List Char) : List (List Char) :=
  betterSplitGo input [] [] false

/-- Split a char list at the first occurrence of `target`: returns the chars
before it and the chars after it. Models the regex character classes
`[^\]]*\]` and `[^\>]*\>` used by `RegisteredChatCommand.parse`. -/
def splitAtChar (target : Char) : List Char → Option (List Char × List Char)
  | [] => none
  | ch :: rest =>
      if ch = target then some ([], rest)
      else
        match splitAtChar target rest with
        | some (body, rest2) => some (ch :: body, rest2)
        | none => none

theorem splitAtChar_length {target : Char} :
    ∀ {l b r : List Char}, splitAtChar target l = some (b, r) → r.length < l.length := by
  intro l
  induction l with
  | nil => intro b r h; simp [splitAtChar] at h
  | cons ch rest ih =>
    intro b r h
    by_cases hc : ch = target
    · simp [splitAtChar, hc] at h
      simp [← h.2]
    · simp only [splitAtChar, if_neg hc] at h
      match hsp : splitAtChar target rest with
      | some (body, rest2) =>
        rw [hsp] at h
        simp at h
        have := ih hsp
        simp [← h.2]
        omega
      | none => rw [hsp] at h; simp at h

/-- Fuel-indexed scanner for the global regex `(\[[^\]]*\]|\<[^\>]*\>)` of
`RegisteredChatCommand.parse`: collects all bracketed parameter groups
(left to right, first match wins, unmatched openers are skipped). The fuel
only forces structural recursion; `l.length` fuel is always enough. -/
def scanParamsF : Nat → List Char → List (List Char)
  | 0, _ => []
  | _ + 1, [] => []
  | fuel + 1, ch :: rest =>
      if ch = '[' then
        match splitAtChar ']' rest with
        | some (body, rest2) => ('[' :: (body ++ [']'])) :: scanParamsF fuel rest2
        | none => scanParamsF fuel rest
      else if ch = '<' then
        match splitAtChar '>' rest with
        | some (body, rest2) => ('<' :: (body ++ ['>'])) :: scanParamsF fuel rest2
        | none => scanParamsF fuel rest
      else scanParamsF fuel rest

theorem scanParamsF_fuelIrrel :
    ∀ f1 f2 (l : List Char), l.length ≤ f1 → l.length ≤ f2 →
      scanParamsF f1 l = scanParamsF f2 l := by
  intro f1
  induction f1 with
  | zero =>
    intro f2 l h1 _
    have : l = [] := List.eq_nil_of_length_eq_zero (Nat.le_zero.mp h1)
    subst this
    cases f2 <;> simp [scanParamsF]
  | succ a ih =>
    intro f2 l h1 h2
    cases l with
    | nil => cases f2 <;> simp [scanParamsF]
    | cons ch rest =>
      cases f2 with
      | zero => simp at h2
      | succ b =>
        simp only [List.length_cons, Nat.succ_le_succ_iff] at h1 h2
        simp only [scanParamsF]
        by_cases hb : ch = '['
        · simp only [if_pos hb]
          match hsp : splitAtChar ']' rest with
          | some (body, rest2) =>
            have hlen := splitAtChar_length hsp
            have hr1 : rest2.length ≤ a := Nat.le_trans (Nat.le_of_lt_succ (Nat.lt_succ_of_lt hlen)) h1
            have hr2 : rest2.length ≤ b := Nat.le_trans (Nat.le_of_lt_succ (Nat.lt_succ_of_lt hlen)) h2
            dsimp only
            rw [ih b rest2 hr1 hr2]
          | none => rw [ih b rest h1 h2]
        · simp only [if_neg hb]
          by_cases hc : ch = '<'
          · simp only [if_pos hc]
            match hsp : splitAtChar '>' rest with
            | some (body, rest2) =>
              have hlen := splitAtChar_length hsp
              have hr1 : rest2.length ≤ a := Nat.le_trans (Nat.le_of_lt_succ (Nat.lt_succ_of_lt hlen)) h1
              have hr2 : rest2.length ≤ b := Nat.le_trans (Nat.le_of_lt_succ (Nat.lt_succ_of_lt hlen)) h2
              dsimp only
              rw [ih b rest2 hr1 hr2]
            | none => rw [ih b rest h1 h2]
          · simp only [if_neg hc]
            rw [ih b rest h1 h2]

/-- The parameter-group scanner (adequately fueled). -/
def scanParams (l : List Char) : List (List Char) := scanParamsF l.length l

/-- One-step unfolding of `scanParams` on a cons cell, with the recursive
occurrences re-expressed through `scanParams` itself. -/
theorem scanParams_cons (ch : Char) (rest : List Char) :
    scanParams (ch :: rest) =
      if ch = '[' then
        match splitAtChar ']' rest with
        | some (body, rest2) => ('[' :: (body ++ [']'])) :: scanParams rest2
        | none => scanParams rest
      else if ch = '<' then
        match splitAtChar '>' rest with
        | some (body, rest2) => ('<' :: (body ++ ['>'])) :: scanParams rest2
        | none => scanParams rest
      else scanParams rest := by
  show scanParamsF (rest.length + 1) (ch :: rest) = _
  simp only [scanParamsF]
  by_cases hb : ch = '['
  · simp only [if_pos hb]
    match hsp : splitAtChar ']' rest with
    | some (body, rest2) =>
      have hlen := splitAtChar_length hsp
      dsimp only
      rw [scanParamsF_fuelIrrel rest.length rest2.length rest2 (Nat.le_of_lt hlen) (Nat.le_refl _)]
      rfl
    | none => rfl
  · simp only [if_neg hb]
    by_cases hc : ch = '<'
    · simp only [if_pos hc]
      match hsp : splitAtChar '>' rest with
      | some (body, rest2) =>
        have hlen := splitAtChar_length hsp
        dsimp only
        rw [scanParamsF_fuelIrrel rest.length rest2.length rest2 (Nat.le_of_lt hlen) (Nat.le_refl _)]
        rfl
      | none => rfl
    · simp only [if_neg hc]
      rfl

/-- JS `String.prototype.trim` whitespace test (the characters relevant to
this codebase). -/
def isWsp (ch : Char) : Bool := ch = ' ' ∨ ch = '\t' ∨ ch = '\n' ∨ ch = '\r'

/-- JS `trim`: drop whitespace from both ends. -/
def trimChars (l : List Char) : List Char :=
  ((l.dropWhile isWsp).reverse.dropWhile isWsp).reverse

/-- Does `pat` occur at the head of the list? -/
def startsWithSeg : List Char → List Char → Bool
  | [], _ => true
  | _ :: _, [] => false
  | p :: ps, x :: xs => p = x && startsWithSeg ps xs

/-- JS `String.prototype.includes`: does `pat` occur as a contiguous segment? -/
def hasSeg (pat : List Char) : List Char → Bool
  | [] => startsWithSeg pat []
  | x :: xs => startsWithSeg pat (x :: xs) || hasSeg pat xs

/-- `matchedParam.substr(1, matchedParam.length - 2)`: strip the surrounding
parameter markers. -/
def stripEnds (g : List Char) : List Char := (g.drop 1).dropLast

/-- `matchedParam.endsWith("...")`. -/
def endsWithDots (l : List Char) : Bool := startsWithSeg ['.', '.', '.'] l.reverse

/-- `matchedParam.substr(0, matchedParam.length - 3)`: strip a trailing `...`. -/
def dropDots (l : List Char) : List Char := l.dropLast.dropLast.dropLast

/-- The `TypeError`s thrown by `RegisteredChatCommand.parse`. -/
inductive ParseErr
  | invalidName
  | nameSpaces
  | reqAfterOpt
  | restNotLast
deriving DecidableEq

/-- The parameter loop of `RegisteredChatCommand.parse`: `wasOptional` records
whether an optional parameter was seen; a required parameter after an optional
one and a non-final rest parameter are errors. -/
def buildParams : List (List Char) → Bool → Except ParseErr (List ChatCommandParameter)
  | [], _ => .ok []
  | g :: gs, wasOptional =>
      if g.head? = some '<' ∧ (if g.head? = some '[' then true else wasOptional) = true then
        .error .reqAfterOpt
      else if endsWithDots (stripEnds g) then
        if gs ≠ [] then .error .restNotLast
        else
          match buildParams gs (if g.head? = some '[' then true else wasOptional) with
          | .ok tailPs => .ok (⟨true, decide (g.head? = some '<'), dropDots (stripEnds g)⟩ :: tailPs)
          | .error e => .error e
      else
        match buildParams gs (if g.head? = some '[' then true else wasOptional) with
        | .ok tailPs => .ok (⟨false, decide (g.head? = some '<'), stripEnds g⟩ :: tailPs)
        | .error e => .error e

/-- `RegisteredChatCommand` (callback omitted: it is opaque to the claims). -/
structure RegisteredChatCommand where
  name : List Char
  params : List ChatCommandParameter
  description : List Char
deriving DecidableEq

/-- Character class `[^\[\<]` of the command-name regex `^([^\[\<]*)`. -/
def notBracket (ch : Char) : Bool := ¬(ch = '[' ∨ ch = '<')

/-- `RegisteredChatCommand.parse`: extract the command name (prefix before the
first `[` or `<`, trimmed) and the parameter list. -/
def parseUsage (usage description : List Char) : Except ParseErr RegisteredChatCommand :=
  if trimChars (usage.takeWhile notBracket) = [] then .error .invalidName
  else if hasSeg [' ', ' '] (trimChars (usage.takeWhile notBracket)) then .error .nameSpaces
  else
    match buildParams (scanParams usage) false with
    | .ok ps => .ok ⟨trimChars (usage.takeWhile notBracket), ps, description⟩
    | .error e => .error e

/-- Rendering of one parameter in `RegisteredChatCommand.createUsage`:
`<name>` when required, `[name]` otherwise (note: no `...` for rest). -/
def renderParam (p : ChatCommandParameter) : List Char :=
  (if p.required then ['<'] else ['[']) ++ p.name ++ (if p.required then ['>'] else [']'])

/-- `Array.prototype.join` on char-list tokens. -/
def joinWith (sep : List Char) : List (List Char) → List Char
  | [] => []
  | [x] => x
  | x :: y :: xs => x ++ sep ++ joinWith sep (y :: xs)

/-- `RegisteredChatCommand.createUsage`:
`"/" + name + " " + params.map(...).join(" ")`. -/
def createUsage (c : RegisteredChatCommand) : List Char :=
  '/' :: (c.name ++ ' ' :: joinWith [' '] (c.params.map renderParam))

/-- The `CallError` message produced by `verify` for a missing required
parameter. -/
def missingMsg (c : RegisteredChatCommand) (p : ChatCommandParameter) : List Char :=
  ("Usage: <color=#12a50a>").data ++ createUsage c
    ++ ("</color>\n<color=#f7584e>Missing: ").data ++ p.name
    ++ ("</color>\n\n").data ++ c.description

/-- The loop of `RegisteredChatCommand.verify`: a rest parameter consumes the
join of all remaining tokens, any other parameter shifts one token; a falsy
(empty/absent) consumed value raises the usage error when the parameter is
required and otherwise ends binding with the arguments bound so far. -/
def verifyArgs (c : RegisteredChatCommand) :
    List ChatCommandParameter → List (List Char) →
    Except (List Char) (List (List Char × List Char))
  | [], _ => .ok []
  | p :: ps, args =>
      let consume := if p.isRest then joinWith [' '] args else args.headD []
      let rest := if p.isRest then [] else args.tail
      if consume = [] then
        if p.required then .error (missingMsg c p) else .ok []
      else do
        let tl ← verifyArgs c ps rest
        .ok ((p.name, consume) :: tl)

/-- `RegisteredChatCommand.verify`. -/
def RegisteredChatCommand.verify (c : RegisteredChatCommand) (args : List (List Char)) :
    Except (List Char) (List (List Char × List Char)) :=
  verifyArgs c c.params args

/-- `ChatCommandHandler.parseMessage`: tokenize, shift the command name, look
the command up and bind the remaining tokens. Returns the command name and
the bound parameter map. -/
def parseMessage (cmds : List RegisteredChatCommand) (message : List Char) :
    Except (List Char) (List Char × List (List Char × List Char)) :=
  match betterSplitOnSpaces message with
  | [] => .error ("Bad command call.").data
  | cmdName :: args =>
      if cmdName = [] then .error ("Bad command call.").data
      else
        match cmds.find? (fun c => c.name = cmdName) with
        | none => .error (("No command with name: ").data ++ cmdName)
        | some c => do
            let parsed ← c.verify args
            .ok (c.name, parsed)

/-- The `player.chat` listener: messages starting with `/` are dispatched
(with the slash stripped); other messages are not handled. -/
def handleChatMessage (cmds : List RegisteredChatCommand) (msg : List Char) :
    Option (Except (List Char) (List Char × List (List Char × List Char))) :=
  match msg with
  | '/' :: rest => some (parseMessage cmds rest)
  | _ => none

/-- View of `Except` as a sum, used to derive decidable equality. -/
def exceptToSum {e a : Type} : Except e a → e ⊕ a
  | .error x => .inl x
  | .ok x => .inr x

instance {e a : Type} [DecidableEq e] [DecidableEq a] : DecidableEq (Except e a) := fun x y =>
  decidable_of_iff (exceptToSum x = exceptToSum y)
    (by cases x <;> cases y <;> simp [exceptToSum])

/-- The command registered with usage `"kick <name> [reason...]"`. -/
def kickCmd : RegisteredChatCommand :=
  ⟨("kick").data, [⟨false, true, ("name").data⟩, ⟨true, false, ("reason").data⟩], []⟩

/-- A command with two required parameters, `"cmd <a> <b>"`. -/
def cmdAB : RegisteredChatCommand :=
  ⟨("cmd").data, [⟨false, true, ("a").data⟩, ⟨false, true, ("b").data⟩], []⟩

/-- C9: dispatching `/kick 'big bob' was being mean` against the command
registered as `kick <name> [reason...]` tokenizes the quoted span as the
single token `big bob` (quotes stripped), binds `name` to it, and binds the
rest parameter `reason` to the remaining tokens joined by single spaces. -/
theorem c9_kick_big_bob :
    parseUsage (("kick <name> [reason...]").data) [] = .ok kickCmd
    ∧ betterSplitOnSpaces (("kick 'big bob' was being mean").data) =
        [("kick").data, ("big bob").data, ("was").data, ("being").data, ("mean").data]
    ∧ handleChatMessage [kickCmd] (("/kick 'big bob' was being mean").data) =
        some (.ok (("kick").data,
          [(("name").data, ("big bob").data), (("reason").data, ("was being mean").data)])) := by
  refine ⟨by decide, by decide, by decide⟩

/-- C8 counterexample: for the registered command `kick <name> [reason...]`,
`createUsage` renders `/kick <name> [reason]` (the `...` rest marker is not
rendered), so re-parsing the rendered usage yields a parameter list whose
`reason` entry has `isRest = false`, different from the command's own
parameters. -/
theorem c8_counterexample :
    parseUsage (("kick <name> [reason...]").data) [] = .ok kickCmd
    ∧ createUsage kickCmd = ("/kick <name> [reason]").data
    ∧ parseUsage (createUsage kickCmd) [] =
        .ok ⟨("/kick").data,
             [⟨false, true, ("name").data⟩, ⟨false, false, ("reason").data⟩], []⟩
    ∧ [ChatCommandParameter.mk false true (("name").data),
       ChatCommandParameter.mk false false (("reason").data)] ≠ kickCmd.params := by
  refine ⟨by decide, by decide, by decide, by decide⟩

/-- C10: the tokenizer keeps empty tokens between consecutive separators and
drops only a trailing empty token; `verify`, on consuming an empty token,
raises the missing-parameter usage error when the parameter is required and
otherwise stops binding and returns the arguments bound so far — so a
required parameter followed by further non-empty tokens can still fail as
missing (here `cmd x  y` fails with `b` missing). -/
theorem c10_empty_token_handling :
    (∀ (c : RegisteredChatCommand) (nm : List Char) (ps : List ChatCommandParameter)
        (args : List (List Char)),
        verifyArgs c (⟨false, true, nm⟩ :: ps) ([] :: args) =
          .error (missingMsg c ⟨false, true, nm⟩)) ∧
    (∀ (c : RegisteredChatCommand) (nm : List Char) (ps : List ChatCommandParameter)
        (args : List (List Char)),
        verifyArgs c (⟨false, false, nm⟩ :: ps) ([] :: args) = .ok []) ∧
    betterSplitOnSpaces (("a  b").data) = [("a").data, [], ("b").data] ∧
    betterSplitOnSpaces (("ab ").data) = [("ab").data] ∧
    parseMessage [cmdAB] (("cmd x  y").data) =
      .error (missingMsg cmdAB ⟨false, true, ("b").data⟩) := by
  refine ⟨?_, ?_, by decide, by decide, by decide⟩
  · intro c nm ps args
    simp [verifyArgs]
  · intro c nm ps args
    simp [verifyArgs]

/-! ### The usage round trip (claim C8) -/

/-- Ordering invariant guaranteed by `parse`: once an optional parameter
appears, every later parameter is optional. -/
def noReqAfterOpt : List ChatCommandParameter → Bool
  | [] => true
  | p :: ps => if p.required then noReqAfterOpt ps else ps.all (fun q => !q.required)

/-- A parameter name that survives the usage round trip: it does not end in
`...` and does not contain its own closing bracket (the regex character
classes `[^\]]` and `[^\>]` guarantee the latter for every parsed command). -/
def goodName (p : ChatCommandParameter) : Bool :=
  !(endsWithDots p.name)
    && (if p.required then !(p.name.contains '>') else !(p.name.contains ']'))

/-- No leading or trailing whitespace (guaranteed for parsed names by the
JS `trim`). -/
def noWspEdge (l : List Char) : Bool :=
  (l.dropWhile isWsp == l) && (l.reverse.dropWhile isWsp == l.reverse)

/-- A command name that survives the round trip: no bracket characters, no
double space once prefixed by `/`, and no whitespace at the edges. -/
def goodCmdName (nm : List Char) : Bool :=
  !(nm.contains '[') && !(nm.contains '<')
    && !(hasSeg [' ', ' '] ('/' :: nm)) && noWspEdge nm

theorem scan_skip :
    ∀ (pre rest : List Char), (∀ ch ∈ pre, ch ≠ '[' ∧ ch ≠ '<') →
      scanParams (pre ++ rest) = scanParams rest := by
  intro pre
  induction pre with
  | nil => intro rest _; rfl
  | cons ch pre ih =>
    intro rest h
    have hch := h ch (by simp)
    rw [List.cons_append, scanParams_cons, if_neg hch.1, if_neg hch.2]
    exact ih rest (fun c hc => h c (List.mem_cons_of_mem _ hc))

theorem splitAtChar_append (t : Char) :
    ∀ (nm rest : List Char), t ∉ nm →
      splitAtChar t (nm ++ t :: rest) = some (nm, rest) := by
  intro nm
  induction nm with
  | nil => intro rest _; simp [splitAtChar]
  | cons c nm ih =>
    intro rest h
    have hc : ¬(c = t) := fun e => h (by simp [e])
    have hnm : t ∉ nm := fun hm => h (List.mem_cons_of_mem _ hm)
    rw [List.cons_append]
    simp only [splitAtChar, if_neg hc, ih rest hnm]

theorem contains_false_not_mem {a : Char} {l : List Char}
    (h : l.contains a = false) : a ∉ l := by
  intro hm
  have ht : l.contains a = true := by
    rw [List.contains_eq_any_beq]
    exact List.any_eq_true.mpr ⟨a, hm, by simp⟩
  rw [h] at ht
  exact Bool.false_ne_true ht

theorem scan_group (p : ChatCommandParameter) (rest : List Char)
    (h : goodName p = true) :
    scanParams (renderParam p ++ rest) = renderParam p :: scanParams rest := by
  unfold goodName at h
  cases hr : p.required with
  | true =>
    rw [hr] at h
    simp at h
    have hmem : '>' ∉ p.name := contains_false_not_mem (by simp [h.2])
    have hrp : renderParam p = '<' :: (p.name ++ ['>']) := by simp [renderParam, hr]
    rw [hrp]
    have e : ('<' :: (p.name ++ ['>'])) ++ rest = '<' :: (p.name ++ '>' :: rest) := by simp
    rw [e, scanParams_cons]
    rw [if_neg (by decide : ¬('<' = '[')), if_pos rfl]
    rw [splitAtChar_append '>' p.name rest hmem]
  | false =>
    rw [hr] at h
    simp at h
    have hmem : ']' ∉ p.name := contains_false_not_mem (by simp [h.2])
    have hrp : renderParam p = '[' :: (p.name ++ [']']) := by simp [renderParam, hr]
    rw [hrp]
    have e : ('[' :: (p.name ++ [']'])) ++ rest = '[' :: (p.name ++ ']' :: rest) := by simp
    rw [e, scanParams_cons]
    rw [if_pos rfl]
    rw [splitAtChar_append ']' p.name rest hmem]

theorem scan_join :
    ∀ (ps : List ChatCommandParameter) (tail : List Char),
      (∀ p ∈ ps, goodName p = true) →
      scanParams (joinWith [' '] (ps.map renderParam) ++ tail) =
        ps.map renderParam ++ scanParams tail := by
  intro ps
  induction ps with
  | nil => intro tail _; rfl
  | cons p ps ih =>
    intro tail h
    have hp := h p (by simp)
    cases ps with
    | nil =>
      simp only [List.map_cons, List.map_nil, joinWith]
      rw [scan_group p tail hp]
      rfl
    | cons q ps =>
      simp only [List.map_cons, joinWith]
      have assoc :
          (renderParam p ++ [' '] ++ joinWith [' '] (renderParam q :: ps.map renderParam)) ++ tail
            = renderParam p ++ (' ' :: (joinWith [' '] (renderParam q :: ps.map renderParam) ++ tail)) := by
        simp
      rw [assoc, scan_group p _ hp, scanParams_cons]
      rw [if_neg (by decide : ¬(' ' = '[')), if_neg (by decide : ¬(' ' = '<'))]
      have ihq := ih tail (fun r hr => h r (List.mem_cons_of_mem _ hr))
      simp only [List.map_cons] at ihq
      rw [ihq]
      rfl

theorem stripEnds_render (p : ChatCommandParameter) : stripEnds (renderParam p) = p.name := by
  cases hr : p.required <;>
    simp [renderParam, stripEnds, hr, List.dropLast_concat]

theorem head_render_true {p : ChatCommandParameter} (hr : p.required = true) :
    (renderParam p).head? = some '<' := by simp [renderParam, hr]

theorem head_render_false {p : ChatCommandParameter} (hr : p.required = false) :
    (renderParam p).head? = some '[' := by simp [renderParam, hr]

theorem goodName_noDots {p : ChatCommandParameter} (h : goodName p = true) :
    endsWithDots p.name = false := by
  unfold goodName at h
  simp at h
  exact h.1

theorem allOpt_noReqAfterOpt :
    ∀ (ps : List ChatCommandParameter),
      ps.all (fun q => !q.required) = true → noReqAfterOpt ps = true := by
  intro ps h
  cases ps with
  | nil => rfl
  | cons p ps =>
    simp only [List.all_cons, Bool.and_eq_true] at h
    have hp : p.required = false := by simpa using h.1
    simp [noReqAfterOpt, hp, h.2]

theorem buildParams_render :
    ∀ (ps : List ChatCommandParameter) (w : Bool),
      noReqAfterOpt ps = true →
      (∀ p ∈ ps, goodName p = true) →
      (w = true → ∀ p ∈ ps, p.required = false) →
      buildParams (ps.map renderParam) w =
        .ok (ps.map (fun p => ⟨false, p.required, p.name⟩)) := by
  intro ps
  induction ps with
  | nil => intro w _ _ _; rfl
  | cons p ps ih =>
    intro w hord hgood hw
    have hgp := hgood p (by simp)
    have hdots : endsWithDots p.name = false := goodName_noDots hgp
    cases hr : p.required with
    | true =>
      have hwf : w = false := by
        cases w with
        | false => rfl
        | true =>
          have := hw rfl p (by simp)
          rw [hr] at this
          exact absurd this (by simp)
      subst hwf
      have hordp : noReqAfterOpt ps = true := by
        unfold noReqAfterOpt at hord
        rw [hr] at hord
        simpa using hord
      have hrec := ih false hordp (fun q hq => hgood q (List.mem_cons_of_mem _ hq))
        (fun hcon => absurd hcon (by simp))
      simp only [List.map_cons, buildParams, head_render_true hr, stripEnds_render]
      simp [hrec, hdots, hr]
    | false =>
      have hallopt : ps.all (fun q => !q.required) = true := by
        unfold noReqAfterOpt at hord
        rw [hr] at hord
        simpa using hord
      have hordp : noReqAfterOpt ps = true := allOpt_noReqAfterOpt ps hallopt
      have hrec := ih true hordp (fun q hq => hgood q (List.mem_cons_of_mem _ hq))
        (fun _ => by
          intro q hq
          have := List.all_eq_true.mp hallopt q hq
          simpa using this)
      simp only [List.map_cons, buildParams, head_render_false hr, stripEnds_render]
      simp [hrec, hdots, hr]

theorem tw_append {P : Char → Bool} :
    ∀ (l rest : List Char), (∀ a ∈ l, P a = true) →
      (l ++ rest).takeWhile P = l ++ rest.takeWhile P := by
  intro l
  induction l with
  | nil => intro rest _; rfl
  | cons a l ih =>
    intro rest h
    have ha := h a (by simp)
    simp only [List.cons_append, List.takeWhile_cons, ha, if_pos]
    rw [ih rest (fun b hb => h b (List.mem_cons_of_mem _ hb))]

theorem takeWhile_render_nil (p : ChatCommandParameter) (t : List Char) :
    (renderParam p ++ t).takeWhile notBracket = [] := by
  cases hr : p.required <;> simp [renderParam, hr, List.takeWhile_cons, notBracket]

theorem joinWith_cons_form (sep : List Char) (x : List Char) (xs : List (List Char)) :
    ∃ t, joinWith sep (x :: xs) = x ++ t := by
  cases xs with
  | nil => exact ⟨[], by simp [joinWith]⟩
  | cons y ys => exact ⟨sep ++ joinWith sep (y :: ys), by simp [joinWith]⟩

theorem dropWhile_fix_slash :
    ∀ (l : List Char), l.dropWhile isWsp = l →
      (l ++ ['/']).dropWhile isWsp = l ++ ['/'] := by
  intro l h
  cases l with
  | nil => simp [List.dropWhile, isWsp]
  | cons a t =>
    have ha : isWsp a = false := by
      by_contra hcon
      have hat : isWsp a = true := by revert hcon; cases isWsp a <;> simp
      rw [List.dropWhile_cons, if_pos hat] at h
      have hl := congrArg List.length h
      have hle : (t.dropWhile isWsp).length ≤ t.length :=
        List.IsSuffix.length_le (List.dropWhile_suffix isWsp)
      simp at hl
      omega
    rw [List.cons_append, List.dropWhile_cons]
    simp [ha]

theorem trim_slash {nm : List Char} (h : noWspEdge nm = true) :
    trimChars ('/' :: (nm ++ [' '])) = '/' :: nm := by
  unfold noWspEdge at h
  simp only [Bool.and_eq_true, beq_iff_eq] at h
  unfold trimChars
  rw [List.dropWhile_cons, if_neg (by simp [isWsp])]
  have e1 : ('/' :: (nm ++ [' '])).reverse = ' ' :: (nm.reverse ++ ['/']) := by simp
  rw [e1, List.dropWhile_cons, if_pos (by simp [isWsp])]
  rw [dropWhile_fix_slash nm.reverse h.2]
  simp

/-- C8 (amended): for every command whose parameters are ordered (no required
after optional — guaranteed by `parse`), whose parameter names do not end in
`...` and do not contain their own closing bracket (guaranteed by the regex
character classes of `parse`), and whose name is bracket-free, double-space
free and trimmed (guaranteed by `parse`), re-parsing the rendered usage
succeeds and reproduces every parameter's name and required flag in order —
but with every `isRest` flag cleared, because `createUsage` does not render
the `...` rest marker. The lists are therefore equal exactly when the command
has no rest parameter. -/
theorem c8_usage_roundtrip (c : RegisteredChatCommand) (d : List Char)
    (h1 : noReqAfterOpt c.params = true)
    (h2 : ∀ p ∈ c.params, goodName p = true)
    (h3 : goodCmdName c.name = true) :
    parseUsage (createUsage c) d =
      .ok ⟨'/' :: c.name, c.params.map (fun p => ⟨false, p.required, p.name⟩), d⟩ := by
  unfold goodCmdName at h3
  simp only [Bool.and_eq_true, Bool.not_eq_true'] at h3
  obtain ⟨⟨⟨hnb1, hnb2⟩, hseg⟩, hwsp⟩ := h3
  have hchars : ∀ ch ∈ c.name, ch ≠ '[' ∧ ch ≠ '<' := by
    intro ch hm
    constructor
    · intro e; exact (contains_false_not_mem hnb1) (e ▸ hm)
    · intro e; exact (contains_false_not_mem hnb2) (e ▸ hm)
  have hpre : ∀ ch ∈ '/' :: (c.name ++ [' ']), ch ≠ '[' ∧ ch ≠ '<' := by
    intro ch hm
    rcases List.mem_cons.mp hm with h | h
    · subst h; exact ⟨by decide, by decide⟩
    · rcases List.mem_append.mp h with h | h
      · exact hchars ch h
      · simp at h; subst h; exact ⟨by decide, by decide⟩
  have hpreTW : ∀ ch ∈ '/' :: (c.name ++ [' ']), notBracket ch = true := by
    intro ch hm
    have := hpre ch hm
    simp [notBracket, this.1, this.2]
  have hsplit : createUsage c =
      ('/' :: (c.name ++ [' '])) ++ joinWith [' '] (c.params.map renderParam) := by
    unfold createUsage
    simp
  have hscan : scanParams (createUsage c) = c.params.map renderParam := by
    rw [hsplit, scan_skip _ _ hpre]
    have := scan_join c.params [] h2
    rw [List.append_nil] at this
    rw [this]
    show List.map renderParam c.params ++ scanParamsF 0 [] = _
    simp [scanParamsF]
  have htake : (createUsage c).takeWhile notBracket = '/' :: (c.name ++ [' ']) := by
    rw [hsplit, tw_append _ _ hpreTW]
    cases hps : c.params with
    | nil => simp [joinWith]
    | cons p ps =>
      obtain ⟨t, ht⟩ := joinWith_cons_form [' '] (renderParam p) (ps.map renderParam)
      simp only [List.map_cons, ht, takeWhile_render_nil]
      simp
  have htrim : trimChars ((createUsage c).takeWhile notBracket) = '/' :: c.name := by
    rw [htake]
    exact trim_slash hwsp
  unfold parseUsage
  rw [htrim, hscan]
  rw [if_neg (by simp : ¬(('/' :: c.name : List Char) = []))]
  have hseg2 : hasSeg [' ', ' '] ('/' :: c.name) = false := hseg
  rw [hseg2]
  rw [if_neg (by simp : ¬((false : Bool) = true))]
  rw [buildParams_render c.params false h1 h2 (fun hcon => absurd hcon (by simp))]

/-- Witness for `c8_usage_roundtrip` at the `kick <name> [reason...]`
command. -/
theorem c8_witness :
    noReqAfterOpt kickCmd.params = true
    ∧ (∀ p ∈ kickCmd.params, goodName p = true)
    ∧ goodCmdName kickCmd.name = true
    ∧ parseUsage (createUsage kickCmd) [] =
        .ok ⟨'/' :: kickCmd.name,
             kickCmd.params.map (fun p => ⟨false, p.required, p.name⟩), []⟩ :=
  ⟨by decide, by decide, by decide,
    c8_usage_roundtrip kickCmd [] (by decide) (by decide) (by decide)⟩

/-! ## Worker: `src/Worker.ts`

The reliability layer, connection registry, mod policy and root-message
handlers. The packet codec (`@skeldjs/protocol`) is an external collaborator:
packets are embedded as an ADT and its byte encoding is modelled (`writeBytes`)
— no claim depends on the byte layout beyond identity of buffers. JS `Map`s
become association lists in insertion order; side effects become an explicit
effect list. -/

/-- `DisconnectReason` codes used by Worker.ts (from `@skeldjs/constant`). -/
inductive DisconnectReason
  | noneReason
  | incorrectVersion
  | hacking
  | gameNotFound
  | gameFull
  | gameStarted
  | banned
  | serverRequest
deriving DecidableEq

/-- The localized messages of `src/i18n` (not under src/) that Worker.ts
disconnects with, together with their format arguments. -/
inductive I18nKey
  | reactorRequiredOnServer
  | reactorNotEnabledOnServer
  | haventReceivedAllMods
  | missingRequiredMod (modId version : List Char)
  | badModVersion (modId clientVersion requiredVersion : List Char)
  | modBannedOnServer (modId : List Char)
  | modNotRecognised (modId : List Char)
  | reactorRequiredForRoom
  | reactorNotEnabledForRoom
deriving DecidableEq

/-- A disconnect (or join-error) reason: a protocol code or a localized
message. -/
inductive DcReason
  | code (r : DisconnectReason)
  | localized (k : I18nKey)
deriving DecidableEq

/-- `ModPluginSide` from `@skeldjs/reactor`. -/
inductive ModPluginSide
  | clientside
  | serverside
  | both
deriving DecidableEq

/-- `ClientMod` from Connection.ts (shape as used by Worker.ts). -/
structure ClientMod where
  netId : Nat
  modId : List Char
  modVersion : List Char
  networkSide : ModPluginSide
deriving DecidableEq

/-- `SentPacket` from Connection.ts: an in-flight reliable packet
(nonce, serialized bytes, send timestamp, acked flag). -/
structure SentPacket where
  nonce : Nat
  buffer : List Nat
  sentAt : Nat
  acked : Bool
deriving DecidableEq

/-- A remote endpoint; Worker.ts keys connections by `"address:port"`, which
is injective in this pair. -/
structure RemoteInfo where
  address : List Char
  port : Nat
deriving DecidableEq

/-- Modelled from the spec: the `Connection` class (src/Connection.ts is not
under src/). Fields are the spec §3 connection attributes as read and written
by Worker.ts; `lastNonce` starts at 0 (nonces start at 1 per §4.2) and
`nonceIdx` backs the modelled `getNextNonce`. -/
structure Connection where
  rinfo : RemoteInfo
  clientId : Nat
  hasIdentified : Bool := false
  sentDisconnect : Bool := false
  usingReactor : Bool := false
  username : List Char := []
  clientVersion : Nat := 0
  numMods : Nat := 0
  mods : List (List Char × ClientMod) := []
  lastNonce : Nat := 0
  nonceIdx : Nat := 0
  receivedPackets : List Nat := []
  sentPackets : List SentPacket := []
  roundTripPing : Nat := 0
  room : Option Nat := none
deriving DecidableEq

/-- `GameState` from `@skeldjs/constant`. -/
inductive GameState
  | notStarted
  | started
  | ended
  | destroyed
deriving DecidableEq

/-- Modelled from the spec: the room attributes of §3 used by the Worker.ts
handlers (Room.ts/BaseRoom.ts are not under src/): code, host client-id
(0 = no host, client-ids start at 1), member client-ids, banned addresses,
max players and game state. -/
structure Room where
  code : Nat
  hostid : Nat := 0
  players : List Nat := []
  bans : List (List Char) := []
  maxPlayers : Nat := 10
  state : GameState := .notStarted
deriving DecidableEq

/-- One entry of `config.reactor.mods` when it is an object:
`{version?, banned?, optional?}`. -/
structure ReactorModConfigObj where
  version : Option (List Char) := none
  banned : Bool := false
  optional : Bool := false
deriving DecidableEq

/-- A `config.reactor.mods` table entry: `true`, `false`, or an object. -/
inductive ModConfigEntry
  | allowed
  | bannedEntry
  | detailed (o : ReactorModConfigObj)
deriving DecidableEq

/-- The `reactor` configuration: `false`, `true`, or an object. -/
inductive ReactorConfig
  | off
  | enabled
  | configured (allowNormalClients requireHostMods blockClientSideOnly allowExtraMods : Bool)
      (mods : List (List Char × ModConfigEntry))
deriving DecidableEq

/-- The configuration slice Worker.ts reads: accepted (encoded) client
versions, the reactor policy, and the loaded plugins mirrored as mods
(id, version). -/
structure Config where
  validVersions : List Nat := []
  reactor : ReactorConfig := .off
  plugins : List (List Char × List Char) := []
deriving DecidableEq

/-- The children of a Reliable packet that Worker.ts registers handlers for;
all other child tags are `unhandled` (no listener). -/
inductive ChildMsg
  | joinGame (code : Nat)
  | startGame
  | endGame (reason : Nat)
  | alterGame (alterTag : Nat) (value : Nat)
  | kickPlayer (targetId : Nat) (ban : Bool)
  | modDecl (netId : Nat) (modId : List Char) (modVersion : List Char) (side : ModPluginSide)
  | unhandled (tag : Nat)
deriving DecidableEq

/-- Root packets: Reliable (nonce + children), (modded) Hello, Ping,
Acknowledge, Disconnect. A Hello with `modcount = some n` is a modded hello
(`isNormalHello()` false). -/
inductive RootPacket
  | reliable (nonce : Nat) (children : List ChildMsg)
  | helloPkt (nonce : Nat) (username : List Char) (clientver : Nat) (modcount : Option Nat)
  | ping (nonce : Nat)
  | ack (nonce : Nat)
  | disconnectPkt
deriving DecidableEq

/-- `packet.nonce` (defined for reliable, hello, ping and acknowledge
packets). -/
def packetNonce : RootPacket → Option Nat
  | .reliable n _ => some n
  | .helloPkt n _ _ _ => some n
  | .ping n => some n
  | .ack n => some n
  | .disconnectPkt => none

/-- `packet instanceof AcknowledgePacket`. -/
def isAckPkt : RootPacket → Bool
  | .ack _ => true
  | _ => false

/-- `packet instanceof ModdedHelloPacket` (ordinary hellos also decode to
this class). -/
def isHelloPkt : RootPacket → Bool
  | .helloPkt _ _ _ _ => true
  | _ => false

/-- Tag byte of a child message (modelled external codec). -/
def childTag : ChildMsg → Nat
  | .joinGame _ => 1
  | .startGame => 2
  | .endGame _ => 8
  | .alterGame _ _ => 10
  | .kickPlayer _ _ => 11
  | .modDecl _ _ _ _ => 255
  | .unhandled t => t

/-- Modelled external codec (`HazelWriter` + `@skeldjs/protocol`): a concrete
serialization; claims depend only on buffer identity and on distinguishing
packet kinds, which distinct root tags provide. -/
def writeBytes : RootPacket → List Nat
  | .reliable n children => 1 :: (n / 256 % 256) :: (n % 256) :: children.map childTag
  | .helloPkt n _ v mc =>
      8 :: (n / 256 % 256) :: (n % 256) :: v ::
        (match mc with | some m => [m] | none => [])
  | .ping n => [12, n / 256 % 256, n % 256]
  | .ack n => [10, n / 256 % 256, n % 256, 255]
  | .disconnectPkt => [9]

/-- Result of `decoder.parse` on a datagram: an exception (malformed), no
packet (unknown root tag), or a decoded root packet. -/
inductive ParseResult
  | failed
  | unknownRoot
  | parsed (pkt : RootPacket)
deriving DecidableEq

/-- An inbound datagram: the raw bytes (Worker.ts additionally inspects
`buffer[5]`) and what the external decoder yields on them. -/
structure Datagram where
  bytes : List Nat
  parsed : ParseResult
deriving DecidableEq

/-- Observable side effects of the worker. `sendBytes` is `_sendPacket`
(a UDP send); `deliverChild` records a child message being emitted to the
decoder's child listeners; `disconnectEff` is the modelled
`Connection.disconnect`; `joinError` is `Connection.joinError`;
`broadcastEff`/`joinedGame` are the modelled room broadcasts. -/
inductive Effect
  | sendBytes (dest : RemoteInfo) (bytes : List Nat)
  | deliverChild (clientId : Nat) (child : ChildMsg)
  | disconnectEff (clientId : Nat) (reason : DcReason)
  | joinError (clientId : Nat) (reason : DcReason)
  | broadcastEff (roomCode : Nat) (child : ChildMsg)
  | joinedGame (roomCode : Nat) (clientId : Nat)
deriving DecidableEq

/-- The worker state: configuration, the connection registry (keyed by
endpoint, insertion order), the room registry and the client-id counter. -/
structure WorkerState where
  config : Config
  connections : List (RemoteInfo × Connection) := []
  rooms : List (Nat × Room) := []
  lastClientId : Nat := 0
deriving DecidableEq

/-! ### Association-list operations (JS `Map` semantics; keys are unique in
any state arising from a JS `Map`) -/

/-- `Map.get`. -/
def lookupA {κ ρ : Type} [DecidableEq κ] : List (κ × ρ) → κ → Option ρ
  | [], _ => none
  | (k, v) :: rest, key => if k = key then some v else lookupA rest key

/-- Replace the value at an existing key (no-op when absent). -/
def updateA {κ ρ : Type} [DecidableEq κ] : List (κ × ρ) → κ → ρ → List (κ × ρ)
  | [], _, _ => []
  | (k, v) :: rest, key, nv =>
      if k = key then (k, nv) :: rest else (k, v) :: updateA rest key nv

/-- `Map.delete` (removes every binding of the key; JS map states are
duplicate-free, on which this coincides). -/
def removeA {κ ρ : Type} [DecidableEq κ] : List (κ × ρ) → κ → List (κ × ρ)
  | [], _ => []
  | (k0, v0) :: rest, key =>
      if k0 = key then removeA rest key else (k0, v0) :: removeA rest key

/-- `Map.set`: overwrite when present, append when absent. -/
def setA {κ ρ : Type} [DecidableEq κ] : List (κ × ρ) → κ → ρ → List (κ × ρ)
  | [], key, nv => [(key, nv)]
  | (k, v) :: rest, key, nv =>
      if k = key then (k, nv) :: rest else (k, v) :: setA rest key nv

/-! ### Connection registry and reliability-layer operations -/

/-- A fresh connection object (`new Connection(this, rinfo, clientid)`). -/
def newConnection (rinfo : RemoteInfo) (clientId : Nat) : Connection :=
  { rinfo := rinfo, clientId := clientId }

/-- Write the (mutated) connection object back into the registry; a JS
mutation is visible through the map only while the entry is present. -/
def setConn (st : WorkerState) (c : Connection) : WorkerState :=
  { st with connections := updateA st.connections c.rinfo c }

/-- Write a (mutated) room back into the room registry. -/
def setRoom (st : WorkerState) (r : Room) : WorkerState :=
  { st with rooms := updateA st.rooms r.code r }

/-- `Worker.getOrCreateConnection`: return the cached connection or create
one with the next client id and insert it. -/
def getOrCreateConnection (st : WorkerState) (rinfo : RemoteInfo) :
    WorkerState × Connection :=
  match lookupA st.connections rinfo with
  | some c => (st, c)
  | none =>
      let cid := st.lastClientId + 1
      let c := newConnection rinfo cid
      ({ st with lastClientId := cid,
                 connections := st.connections ++ [(rinfo, c)] }, c)

/-- Modelled from the spec: `Connection.getNextNonce` (Connection.ts is not
under src/) — "assigns the next per-connection nonce (starting at 1)"
(§4.2). -/
def getNextNonce (c : Connection) : Nat × Connection :=
  (c.nonceIdx + 1, { c with nonceIdx := c.nonceIdx + 1 })

/-- `Worker.sendPacket` (also backing `Connection.sendPacket`): serialize;
when the packet carries a nonce and is not an Acknowledge, prepend a fresh
`SentPacket` to the in-flight deque and truncate it to 8 (`unshift` +
`splice(8)`); then transmit. -/
def connSendPacket (now : Nat) (st : WorkerState) (conn : Connection) (pkt : RootPacket) :
    WorkerState × Connection × List Effect :=
  match packetNonce pkt with
  | some n =>
      if isAckPkt pkt then (st, conn, [.sendBytes conn.rinfo (writeBytes pkt)])
      else
        let c2 : Connection := { conn with sentPackets :=
          (SentPacket.mk n (writeBytes pkt) now false :: conn.sentPackets).take 8 }
        (setConn st c2, c2, [.sendBytes conn.rinfo (writeBytes pkt)])
  | none => (st, conn, [.sendBytes conn.rinfo (writeBytes pkt)])

/-- Modelled from the spec: `Connection.disconnect` (Connection.ts is not
under src/) — a graceful disconnect "sends a Disconnect packet with a reason
code, then removes" (§4.3); the spec's "disconnect initiated" flag guards
repeated disconnects. -/
def connDisconnect (st : WorkerState) (conn : Connection) (reason : DcReason) :
    WorkerState × Connection × List Effect :=
  if conn.sentDisconnect then (st, conn, [])
  else
    ({ st with connections := removeA st.connections conn.rinfo },
     { conn with sentDisconnect := true },
     [.disconnectEff conn.clientId reason])

/-- Modelled from the spec: `Connection.joinError` — sends a join-error
message carrying the reason "to the caller without altering room state"
(§4.6). -/
def connJoinError (st : WorkerState) (conn : Connection) (reason : DcReason) :
    WorkerState × Connection × List Effect :=
  (st, conn, [.joinError conn.clientId reason])

/-! ### The 2000 ms reliability tick (Worker.ts constructor, `setInterval`) -/

/-- The retransmit loop body: every unacked in-flight packet older than
500 ms is re-sent from its stored buffer and its `sentAt` reset to now. -/
def retransmitLoop (now : Nat) (rinfo : RemoteInfo) :
    List SentPacket → List SentPacket × List Effect
  | [] => ([], [])
  | p :: ps =>
      match retransmitLoop now rinfo ps with
      | (ps2, effs) =>
          if p.acked = false ∧ 500 < now - p.sentAt then
            ({ p with sentAt := now } :: ps2, .sendBytes rinfo p.buffer :: effs)
          else (p :: ps2, effs)

/-- One connection's share of the 2000 ms tick: when all 8 in-flight packets
are unacked the connection is presumed dead and disconnected (`continue`);
otherwise a fresh-nonce Ping is sent through `sendPacket` (tracking it in the
deque) and the retransmit loop runs over the updated deque. Returns `none`
when the connection was removed. -/
def tickConn (now : Nat) (conn : Connection) : Option Connection × List Effect :=
  if conn.sentPackets.length = 8 ∧ conn.sentPackets.all (fun p => !p.acked) then
    if conn.sentDisconnect then (some conn, [])
    else (none, [.disconnectEff conn.clientId (.code .noneReason)])
  else
    match getNextNonce conn with
    | (n, c1) =>
        let c2 : Connection := { c1 with sentPackets :=
          (SentPacket.mk n (writeBytes (.ping n)) now false :: c1.sentPackets).take 8 }
        match retransmitLoop now conn.rinfo c2.sentPackets with
        | (pkts, effs) =>
            (some { c2 with sentPackets := pkts },
             .sendBytes conn.rinfo (writeBytes (.ping n)) :: effs)

/-- The tick over every connection in registry order. -/
def tickAllConns (now : Nat) :
    List (RemoteInfo × Connection) → List (RemoteInfo × Connection) × List Effect
  | [] => ([], [])
  | (a, c) :: rest =>
      match tickConn now c, tickAllConns now rest with
      | (some c1, e1), (l, e2) => ((a, c1) :: l, e1 ++ e2)
      | (none, e1), (l, e2) => (l, e1 ++ e2)

/-- The whole 2000 ms tick. -/
def pingTick (now : Nat) (st : WorkerState) : WorkerState × List Effect :=
  match tickAllConns now st.connections with
  | (l, effs) => ({ st with connections := l }, effs)

/-! ### `Worker.checkClientMods` (pure part: result + disconnect calls) -/

/-- Modelled: the external `minimatch` semver-glob matcher (its verdict is
irrelevant to the claims; `*` matches anything, otherwise exact match). -/
def minimatchModel (version pattern : List Char) : Bool :=
  version = pattern ∨ pattern = ['*']

/-- Version string shown for a missing required mod:
`modConfig !== true && modConfig.version ? "v" + version : "any"`. -/
def missingVersionString : ModConfigEntry → List Char
  | .detailed o =>
      match o.version with
      | some v => 'v' :: v
      | none => ("any").data
  | _ => ("any").data

/-- The loop over the `config.reactor.mods` entries. Returns the disconnect
calls made and `some b` on an early `return` (where a bare `return;` yields
the falsy `undefined`, here `false`), or `none` when the loop runs through.
Note the missing-required-mod branch disconnects and then `continue`s —
it does NOT return. -/
def modsLoopA (mods : List (List Char × ClientMod)) :
    List (List Char × ModConfigEntry) → List DcReason × Option Bool
  | [] => ([], none)
  | (modId, mc) :: rest =>
      match lookupA mods modId with
      | none =>
          match mc with
          | .bannedEntry => ([], some false)
          | .allowed =>
              match modsLoopA mods rest with
              | (effs, r) =>
                  (.localized (.missingRequiredMod modId (missingVersionString .allowed)) :: effs, r)
          | .detailed o =>
              if o.optional then modsLoopA mods rest
              else
                match modsLoopA mods rest with
                | (effs, r) =>
                    (.localized (.missingRequiredMod modId (missingVersionString (.detailed o))) :: effs, r)
      | some clientMod =>
          match mc with
          | .bannedEntry => ([.localized (.modBannedOnServer modId)], some false)
          | .allowed => modsLoopA mods rest
          | .detailed o =>
              if o.banned then ([.localized (.modBannedOnServer modId)], some false)
              else
                match o.version with
                | some pat =>
                    if minimatchModel clientMod.modVersion pat then modsLoopA mods rest
                    else
                      ([.localized (.badModVersion modId ('v' :: clientMod.modVersion) ('v' :: pat))],
                       some false)
                | none => modsLoopA mods rest

/-- The `allowExtraMods` loop: a client mod with no (truthy) table entry is
not recognised. -/
def extraModsLoop (table : List (List Char × ModConfigEntry)) :
    List (List Char × ClientMod) → List DcReason × Option Bool
  | [] => ([], none)
  | (_, clientMod) :: rest =>
      match lookupA table clientMod.modId with
      | none => ([.localized (.modNotRecognised clientMod.modId)], some false)
      | some .bannedEntry => ([.localized (.modNotRecognised clientMod.modId)], some false)
      | some _ => extraModsLoop table rest

/-- `Worker.checkClientMods`: returns the truthiness of the TS return value
(`return;` is falsy) together with the `connection.disconnect` calls made. -/
def checkClientMods (cfg : Config) (conn : Connection) : Bool × List DcReason :=
  if conn.usingReactor = false then (true, [])
  else if conn.mods.length < conn.numMods then
    (false, [.localized .haventReceivedAllMods])
  else
    match cfg.reactor with
    | .off => (false, [.localized .reactorNotEnabledOnServer])
    | .enabled => (true, [])
    | .configured _ _ _ allowExtraMods table =>
        match modsLoopA conn.mods table with
        | (effs1, some b) => (b, effs1)
        | (effs1, none) =>
            if allowExtraMods then (true, effs1)
            else
              match extraModsLoop table conn.mods with
              | (effs2, some b) => (b, effs1 ++ effs2)
              | (effs2, none) => (true, effs1 ++ effs2)

/-- Apply the disconnect calls recorded by `checkClientMods` to the state
(the first call removes the connection; later calls are no-ops thanks to the
disconnect-initiated flag). -/
def runDisconnects : WorkerState → Connection → List DcReason →
    WorkerState × Connection × List Effect
  | st, conn, [] => (st, conn, [])
  | st, conn, r :: rest =>
      match connDisconnect st conn r with
      | (st1, c1, e1) =>
          match runDisconnects st1 c1 rest with
          | (st2, c2, e2) => (st2, c2, e1 ++ e2)

/-! ### Root- and child-message handlers (`Worker.registerPacketHandlers`) -/

/-- Modelled from the spec: `Connection.getPlayer` / `player.ishost`
(Connection.ts and the room classes are not under src/): the player object
exists iff the connection belongs to a room of the registry that lists its
client id; the host is the player whose client id is the room's host id
(§3, glossary). -/
def getPlayerRoom (st : WorkerState) (conn : Connection) : Option Room :=
  match conn.room with
  | none => none
  | some code =>
      match lookupA st.rooms code with
      | none => none
      | some room =>
          if room.players.contains conn.clientId then some room else none

/-- Shared shape of the AlterGame/StartGame/EndGame/KickPlayer handlers:
no player — ignore; sender not the host — disconnect with `Hacking`;
otherwise broadcast the re-built message to the room (KickPlayer's body is
commented out in the source, hence `none`). -/
def hostOnlyHandler (st : WorkerState) (conn : Connection)
    (mkMsg : Room → Option ChildMsg) : WorkerState × Connection × List Effect :=
  match getPlayerRoom st conn with
  | none => (st, conn, [])
  | some room =>
      if room.hostid = conn.clientId then
        match mkMsg room with
        | some m => (st, conn, [.broadcastEff room.code m])
        | none => (st, conn, [])
      else connDisconnect st conn (.code .hacking)

/-- The `ReactorModDeclarationMessage` handler: ignore excess declarations,
otherwise record the mod keyed by its mod id. -/
def modDeclHandler (st : WorkerState) (conn : Connection) (netId : Nat)
    (modId modVersion : List Char) (side : ModPluginSide) :
    WorkerState × Connection × List Effect :=
  if conn.numMods ≤ conn.mods.length then (st, conn, [])
  else
    let c1 : Connection := { conn with mods := setA conn.mods modId ⟨netId, modId, modVersion, side⟩ }
    (setConn st c1, c1, [])

/-- The `AcknowledgePacket` handler's loop: mark the first in-flight packet
with the matching nonce acked and compute the round trip (`break` after the
first match). -/
def markAcked (now nonce : Nat) : List SentPacket → List SentPacket × Option Nat
  | [] => ([], none)
  | p :: ps =>
      if p.nonce = nonce then ({ p with acked := true } :: ps, some (now - p.sentAt))
      else
        match markAcked now nonce ps with
        | (ps2, r) => (p :: ps2, r)

/-- The `AcknowledgePacket` handler. -/
def ackPacketHandler (now : Nat) (st : WorkerState) (conn : Connection) (nonce : Nat) :
    WorkerState × Connection × List Effect :=
  match markAcked now nonce conn.sentPackets with
  | (pkts, rtt) =>
      let c1 : Connection :=
        { conn with
          sentPackets := pkts,
          roundTripPing := (match rtt with | some r => r | none => conn.roundTripPing) }
      (setConn st c1, c1, [])

/-- The `[ReliablePacket, ModdedHelloPacket, PingPacket]` handler: push the
nonce onto the bounded received-nonce deque (`unshift` + `splice(8)`) and
immediately send an Acknowledge for it. -/
def ackReplyHandler (now : Nat) (st : WorkerState) (conn : Connection) (nonce : Nat) :
    WorkerState × Connection × List Effect :=
  let c1 : Connection := { conn with receivedPackets := (nonce :: conn.receivedPackets).take 8 }
  connSendPacket now (setConn st c1) c1 (.ack nonce)

/-- The `DisconnectPacket` handler: disconnect back (unless already
initiated), then remove the connection. -/
def disconnectPktHandler (st : WorkerState) (conn : Connection) :
    WorkerState × Connection × List Effect :=
  match (if conn.sentDisconnect then (st, conn, ([] : List Effect))
         else connDisconnect st conn (.code .noneReason)) with
  | (st1, c1, e1) =>
      ({ st1 with connections := removeA st1.connections c1.rinfo }, c1, e1)

/-- `chunkArr(entries, 4)` from src/util/chunkArr (not under src/); the spec
fixes the chunk size: "a chunked (≤ 4 per reliable message) list of server
plugins" (§4.4). Fuel-structured recursion, `l.length` fuel is enough. -/
def chunksOf4F {α : Type} : Nat → List α → List (List α)
  | 0, _ => []
  | _ + 1, [] => []
  | f + 1, x :: xs => ((x :: xs).take 4) :: chunksOf4F f ((x :: xs).drop 4)

/-- `chunkArr` at chunk size 4. -/
def chunksOf4 {α : Type} (l : List α) : List (List α) := chunksOf4F l.length l

/-- The per-chunk `ReactorModDeclarationMessage` sends of the hello handler
(one fresh-nonce Reliable packet per chunk; the reactor message payload is
opaque to this model, tag 0xff). -/
def sendPluginChunks (now : Nat) :
    WorkerState → Connection → List (List (List Char × List Char)) →
    WorkerState × Connection × List Effect
  | st, conn, [] => (st, conn, [])
  | st, conn, chunk :: rest =>
      match getNextNonce conn with
      | (n, c1) =>
          match connSendPacket now st c1 (.reliable n (chunk.map (fun _ => .unhandled 255))) with
          | (st1, c2, e1) =>
              match sendPluginChunks now st1 c2 rest with
              | (st2, c3, e2) => (st2, c3, e1 ++ e2)

/-- The `ModdedHelloPacket` handler: ignore when already identified; record
identity; reject invalid client versions (`IncorrectVersion`); a modded hello
with `reactor` disabled is rejected, otherwise answered with the handshake
and the chunked server-plugin mod list; an ordinary hello is rejected when
the policy requires the mod framework. -/
def helloHandler (now : Nat) (st : WorkerState) (conn : Connection)
    (username : List Char) (clientver : Nat) (modcount : Option Nat) :
    WorkerState × Connection × List Effect :=
  if conn.hasIdentified then (st, conn, [])
  else
    let c1 : Connection :=
      { conn with
        hasIdentified := true,
        usingReactor := modcount.isSome,
        username := username,
        clientVersion := clientver,
        numMods := (match modcount with | some m => m | none => conn.numMods) }
    let st1 := setConn st c1
    if (st.config.validVersions.contains clientver) = false then
      connDisconnect st1 c1 (.code .incorrectVersion)
    else if c1.usingReactor then
      match st.config.reactor with
      | .off => connDisconnect st1 c1 (.localized .reactorNotEnabledOnServer)
      | _ =>
          match getNextNonce c1 with
          | (n1, c2) =>
              match connSendPacket now st1 c2 (.reliable n1 [.unhandled 255]) with
              | (st2, c3, e1) =>
                  match sendPluginChunks now st2 c3 (chunksOf4 st.config.plugins) with
                  | (st3, c4, e2) => (st3, c4, e1 ++ e2)
    else
      match st.config.reactor with
      | .off => (st1, c1, [])
      | .enabled => connDisconnect st1 c1 (.localized .reactorRequiredOnServer)
      | .configured allowNormalClients _ _ _ _ =>
          if allowNormalClients then (st1, c1, [])
          else connDisconnect st1 c1 (.localized .reactorRequiredOnServer)

/-! ### The `JoinGameMessage` handler -/

/-- Modelled from the spec: `room.connections.get(hostid)` — the room's
connection map holds the member connections (BaseRoom.ts is not under src/);
here the registry entry with that client id. -/
def findConnByClientId (st : WorkerState) (cid : Nat) : Option Connection :=
  match st.connections.find? (fun e => e.2.clientId = cid) with
  | some e => some e.2
  | none => none

/-- First `requireHostMods` loop: every non-client-side host mod must be
present in the joiner with an identical version. -/
def hostModsLoop1 (blockCS : Bool) (conn : Connection) :
    List (List Char × ClientMod) → Option DcReason
  | [] => none
  | (hostModId, hostMod) :: rest =>
      if hostMod.networkSide = .clientside ∧ blockCS = true then
        hostModsLoop1 blockCS conn rest
      else
        match lookupA conn.mods hostModId with
        | none => some (.localized (.missingRequiredMod hostMod.modId hostMod.modVersion))
        | some clientMod =>
            if clientMod.modVersion = hostMod.modVersion then
              hostModsLoop1 blockCS conn rest
            else
              some (.localized (.badModVersion clientMod.modId clientMod.modVersion hostMod.modVersion))

/-- Second `requireHostMods` loop: every non-client-side joiner mod must be
present in the host. -/
def hostModsLoop2 (blockCS : Bool) (hostConn : Connection) :
    List (List Char × ClientMod) → Option DcReason
  | [] => none
  | (clientModId, clientMod) :: rest =>
      if clientMod.networkSide = .clientside ∧ blockCS = true then
        hostModsLoop2 blockCS hostConn rest
      else
        match lookupA hostConn.mods clientModId with
        | none => some (.localized (.modNotRecognised clientMod.modId))
        | some _ => hostModsLoop2 blockCS hostConn rest

/-- The `requireHostMods` block against a found host connection. -/
def reactorJoinCheckHost (blockCS : Bool) (conn : Connection) :
    Option Connection → Option DcReason
  | none => none
  | some hostConn =>
      if hostConn.usingReactor = true ∧ conn.usingReactor = false then
        some (.localized .reactorRequiredForRoom)
      else if hostConn.usingReactor = false ∧ conn.usingReactor = true then
        some (.localized .reactorNotEnabledForRoom)
      else
        match hostModsLoop1 blockCS conn hostConn.mods with
        | some r => some r
        | none => hostModsLoop2 blockCS hostConn conn.mods

/-- The `requireHostMods` gate of the JoinGame handler
(`reactor !== false && (reactor === true || requireHostMods) && hostid`). -/
def reactorJoinCheck (st : WorkerState) (conn : Connection) (room : Room) :
    Option DcReason :=
  if room.hostid = 0 then none
  else
    match st.config.reactor with
    | .off => none
    | .enabled => reactorJoinCheckHost true conn (findConnByClientId st room.hostid)
    | .configured _ requireHostMods blockCS _ _ =>
        if requireHostMods then
          reactorJoinCheckHost blockCS conn (findConnByClientId st room.hostid)
        else none

/-- Modelled from the spec: `room.handleRemoteJoin` (§4.6, BaseRoom.ts is
not under src/): reject a destroyed room, otherwise attach the connection to
the room, insert it into the member list, designate it host when the room
has none, and notify with JoinedGame. -/
def handleRemoteJoin (st : WorkerState) (conn : Connection) (room : Room) :
    WorkerState × Connection × List Effect :=
  if room.state = .destroyed then
    connJoinError st conn (.code .gameNotFound)
  else
    let c1 : Connection := { conn with room := some room.code }
    let r1 : Room :=
      { room with
        players := room.players ++ [conn.clientId],
        hostid := if room.hostid = 0 then conn.clientId else room.hostid }
    (setRoom (setConn st c1) r1, c1, [.joinedGame room.code conn.clientId])

/-- The `JoinGameMessage` handler: already in a room — ignore; run the mod
check (performing its disconnects) and stop when it reports failure; then
room lookup (`GameNotFound`), ban check (disconnect `Banned`), capacity
(`GameFull`), started (`GameStarted`), the `requireHostMods` gate, and
finally the remote join. -/
def joinGameHandler (st : WorkerState) (conn : Connection) (code : Nat) :
    WorkerState × Connection × List Effect :=
  if conn.room.isSome then (st, conn, [])
  else
    match checkClientMods st.config conn with
    | (ok, dcs) =>
        match runDisconnects st conn dcs with
        | (st1, c1, e1) =>
            if ok = false then (st1, c1, e1)
            else
              match lookupA st1.rooms code with
              | none =>
                  match connJoinError st1 c1 (.code .gameNotFound) with
                  | (st2, c2, e2) => (st2, c2, e1 ++ e2)
              | some room =>
                  if room.bans.contains c1.rinfo.address then
                    match connDisconnect st1 c1 (.code .banned) with
                    | (st2, c2, e2) => (st2, c2, e1 ++ e2)
                  else if room.maxPlayers ≤ room.players.length then
                    match connJoinError st1 c1 (.code .gameFull) with
                    | (st2, c2, e2) => (st2, c2, e1 ++ e2)
                  else if room.state = .started then
                    match connJoinError st1 c1 (.code .gameStarted) with
                    | (st2, c2, e2) => (st2, c2, e1 ++ e2)
                  else
                    match reactorJoinCheck st1 c1 room with
                    | some reason =>
                        match connJoinError st1 c1 reason with
                        | (st2, c2, e2) => (st2, c2, e1 ++ e2)
                    | none =>
                        match handleRemoteJoin st1 c1 room with
                        | (st2, c2, e2) => (st2, c2, e1 ++ e2)

/-! ### Child and root dispatch -/

/-- Dispatch of one child message to its registered handler (children with
no listener have no effect beyond being emitted). -/
def emitChild (st : WorkerState) (conn : Connection) :
    ChildMsg → WorkerState × Connection × List Effect
  | .unhandled _ => (st, conn, [])
  | .modDecl netId modId ver side => modDeclHandler st conn netId modId ver side
  | .joinGame code => joinGameHandler st conn code
  | .startGame => hostOnlyHandler st conn (fun _ => some .startGame)
  | .endGame reason => hostOnlyHandler st conn (fun _ => some (.endGame reason))
  | .alterGame t v => hostOnlyHandler st conn (fun _ => some (.alterGame t v))
  | .kickPlayer _ _ => hostOnlyHandler st conn (fun _ => none)

/-- Emit every child of a reliable packet in order (the external
`PacketDecoder` emits nested messages to their listeners); each emission is
recorded as a `deliverChild` effect. -/
def emitChildren : WorkerState → Connection → List ChildMsg →
    WorkerState × Connection × List Effect
  | st, conn, [] => (st, conn, [])
  | st, conn, ch :: rest =>
      match emitChild st conn ch with
      | (st1, c1, e1) =>
          match emitChildren st1 c1 rest with
          | (st2, c2, e2) => (st2, c2, (.deliverChild conn.clientId ch :: e1) ++ e2)

/-- `decoder.emitDecoded` on a root packet: run the root-level listeners in
registration order (the ack-reply listener first), then the children's. -/
def emitDecoded (now : Nat) (st : WorkerState) (conn : Connection) :
    RootPacket → WorkerState × Connection × List Effect
  | .reliable n children =>
      match ackReplyHandler now st conn n with
      | (st1, c1, e1) =>
          match emitChildren st1 c1 children with
          | (st2, c2, e2) => (st2, c2, e1 ++ e2)
  | .helloPkt n u v mc =>
      match ackReplyHandler now st conn n with
      | (st1, c1, e1) =>
          match helloHandler now st1 c1 u v mc with
          | (st2, c2, e2) => (st2, c2, e1 ++ e2)
  | .ping n => ackReplyHandler now st conn n
  | .ack n => ackPacketHandler now st conn n
  | .disconnectPkt => disconnectPktHandler st conn

/-- `Worker.handleMessage`: parse failures and unknown root tags go through
`getOrCreateConnection` (for logging) — creating a registry entry for an
unknown endpoint; for a cached connection, a nonce-bearing non-Acknowledge
packet with `nonce ≤ lastNonce` is discarded unless byte 5 of the datagram is
0xff (the reactor mod-declaration quirk), otherwise `lastNonce` is updated
and the packet emitted; for an unknown endpoint only a (modded) hello packet
creates a connection, whose `lastNonce` starts from the hello's nonce. -/
def handleMessage (now : Nat) (st : WorkerState) (rinfo : RemoteInfo) (dg : Datagram) :
    WorkerState × List Effect :=
  match dg.parsed with
  | .failed => ((getOrCreateConnection st rinfo).1, [])
  | .unknownRoot => ((getOrCreateConnection st rinfo).1, [])
  | .parsed pkt =>
      match lookupA st.connections rinfo with
      | some cached =>
          match packetNonce pkt with
          | some nonce =>
              if isAckPkt pkt then
                match emitDecoded now st cached pkt with
                | (st1, _, e1) => (st1, e1)
              else if nonce ≤ cached.lastNonce ∧ dg.bytes.get? 5 ≠ some 255 then
                (st, [])
              else
                let c1 : Connection := { cached with lastNonce := nonce }
                match emitDecoded now (setConn st c1) c1 pkt with
                | (st1, _, e1) => (st1, e1)
          | none =>
              match emitDecoded now st cached pkt with
              | (st1, _, e1) => (st1, e1)
      | none =>
          if isHelloPkt pkt = false then (st, [])
          else
            let cid := st.lastClientId + 1
            let c1 : Connection :=
              match packetNonce pkt with
              | some n => { newConnection rinfo cid with lastNonce := n }
              | none => newConnection rinfo cid
            let st1 : WorkerState :=
              { st with lastClientId := cid,
                        connections := st.connections ++ [(rinfo, c1)] }
            match emitDecoded now st1 c1 pkt with
            | (st2, _, e2) => (st2, e2)

/-! ### Association-list lemmas -/

theorem lookupA_updateA_self {κ ρ : Type} [DecidableEq κ] :
    ∀ (l : List (κ × ρ)) (k : κ) (v : ρ),
      lookupA (updateA l k v) k = (lookupA l k).map (fun _ => v) := by
  intro l k v
  induction l with
  | nil => rfl
  | cons e rest ih =>
    match e with
    | (k0, v0) =>
      by_cases hk : k0 = k
      · simp [updateA, lookupA, hk]
      · simp [updateA, lookupA, hk, ih]

theorem lookupA_updateA_ne {κ ρ : Type} [DecidableEq κ] :
    ∀ (l : List (κ × ρ)) (k k2 : κ) (v : ρ), k2 ≠ k →
      lookupA (updateA l k v) k2 = lookupA l k2 := by
  intro l k k2 v hne
  induction l with
  | nil => rfl
  | cons e rest ih =>
    match e with
    | (k0, v0) =>
      by_cases hk : k0 = k
      · subst hk
        have hne2 : ¬(k0 = k2) := fun h => hne h.symm
        simp [updateA, lookupA, hne2]
      · simp [updateA, lookupA, hk, ih]

theorem lookupA_removeA_self {κ ρ : Type} [DecidableEq κ] :
    ∀ (l : List (κ × ρ)) (k : κ), lookupA (removeA l k) k = none := by
  intro l k
  induction l with
  | nil => rfl
  | cons e rest ih =>
    match e with
    | (k0, v0) =>
      by_cases hk : k0 = k
      · simp [removeA, hk, ih]
      · simp [removeA, hk, lookupA, ih]

theorem lookupA_removeA_ne {κ ρ : Type} [DecidableEq κ] :
    ∀ (l : List (κ × ρ)) (k k2 : κ), k2 ≠ k →
      lookupA (removeA l k) k2 = lookupA l k2 := by
  intro l k k2 hne
  induction l with
  | nil => rfl
  | cons e rest ih =>
    match e with
    | (k0, v0) =>
      by_cases hk : k0 = k
      · subst hk
        have hne2 : ¬(k0 = k2) := fun h => hne h.symm
        simp [removeA, lookupA, hne2, ih]
      · by_cases hk2 : k0 = k2
        · subst hk2
          simp [removeA, hk, lookupA, hne]
        · simp [removeA, hk, lookupA, hk2, ih]

theorem lookupA_append_none {κ ρ : Type} [DecidableEq κ] :
    ∀ (l m : List (κ × ρ)) (k : κ), lookupA l k = none →
      lookupA (l ++ m) k = lookupA m k := by
  intro l m k h
  induction l with
  | nil => rfl
  | cons e rest ih =>
    match e with
    | (k0, v0) =>
      by_cases hk : k0 = k
      · simp [lookupA, hk] at h
      · simp [lookupA, hk] at h ⊢
        exact ih h

/-! ### Sender-connection synchronization across handlers

Every Worker.ts handler mutates only the connection object it was passed
(written back at its own endpoint key) or removes it; none writes
`lastNonce`. `connSynced` says the registry entry at the connection's key, if
any, is that object; `HStep` packages what every handler step preserves. -/

def connSynced (st : WorkerState) (conn : Connection) : Prop :=
  ∀ e, lookupA st.connections conn.rinfo = some e → e = conn

/-- What one handler step preserves about the sender: its endpoint key, its
`lastNonce`, and registry synchronization. -/
def HStep (st : WorkerState) (conn : Connection) (st2 : WorkerState) (conn2 : Connection) : Prop :=
  conn2.rinfo = conn.rinfo ∧ conn2.lastNonce = conn.lastNonce ∧
    (connSynced st conn → connSynced st2 conn2)

theorem HStep_refl (st : WorkerState) (conn : Connection) : HStep st conn st conn :=
  ⟨rfl, rfl, fun h => h⟩

theorem HStep_trans {st1 : WorkerState} {c1 : Connection} {st2 : WorkerState} {c2 : Connection}
    {st3 : WorkerState} {c3 : Connection}
    (h12 : HStep st1 c1 st2 c2) (h23 : HStep st2 c2 st3 c3) : HStep st1 c1 st3 c3 :=
  ⟨h23.1.trans h12.1, h23.2.1.trans h12.2.1, fun h => h23.2.2 (h12.2.2 h)⟩

theorem connSynced_setConn (st : WorkerState) (c : Connection) :
    connSynced (setConn st c) c := by
  intro e he
  unfold setConn at he
  simp only at he
  rw [lookupA_updateA_self] at he
  cases hl : lookupA st.connections c.rinfo with
  | none => rw [hl] at he; simp at he
  | some x => rw [hl] at he; simp at he; exact he.symm

theorem connSynced_of_absent (st : WorkerState) (c : Connection)
    (h : lookupA st.connections c.rinfo = none) : connSynced st c := by
  intro e he
  rw [h] at he
  exact absurd he (by simp)

theorem HStep_setConn_self (st : WorkerState) (conn c2 : Connection)
    (hr : c2.rinfo = conn.rinfo) (hn : c2.lastNonce = conn.lastNonce) :
    HStep st conn (setConn st c2) c2 := by
  refine ⟨hr, hn, fun _ => ?_⟩
  exact connSynced_setConn st c2

theorem hstep_connDisconnect (st : WorkerState) (conn : Connection) (r : DcReason) :
    HStep st conn (connDisconnect st conn r).1 (connDisconnect st conn r).2.1 := by
  unfold connDisconnect
  by_cases hd : conn.sentDisconnect
  · simp [hd, HStep_refl]
  · simp only [hd, if_neg, Bool.false_eq_true, if_false]
    refine ⟨rfl, rfl, fun _ => ?_⟩
    exact connSynced_of_absent _ _ (by simpa using lookupA_removeA_self st.connections conn.rinfo)

theorem hstep_connJoinError (st : WorkerState) (conn : Connection) (r : DcReason) :
    HStep st conn (connJoinError st conn r).1 (connJoinError st conn r).2.1 :=
  HStep_refl st conn

theorem hstep_connSendPacket (now : Nat) (st : WorkerState) (conn : Connection) (pkt : RootPacket) :
    HStep st conn (connSendPacket now st conn pkt).1 (connSendPacket now st conn pkt).2.1 := by
  unfold connSendPacket
  match packetNonce pkt with
  | none => exact HStep_refl st conn
  | some n =>
    by_cases ha : isAckPkt pkt = true
    · simp [ha, HStep_refl]
    · simp only [Bool.not_eq_true] at ha
      simp only [ha, Bool.false_eq_true, if_false]
      exact HStep_setConn_self st conn _ rfl rfl

theorem HStep_setRoom (st : WorkerState) (conn : Connection) (r : Room) :
    HStep st conn (setRoom st r) conn :=
  ⟨rfl, rfl, fun h e he => h e he⟩

theorem hstep_ackReply (now : Nat) (st : WorkerState) (conn : Connection) (n : Nat) :
    HStep st conn (ackReplyHandler now st conn n).1 (ackReplyHandler now st conn n).2.1 := by
  simp only [ackReplyHandler, connSendPacket, packetNonce, isAckPkt, if_pos]
  exact ⟨rfl, rfl, fun _ => connSynced_setConn st _⟩

theorem hstep_modDecl (st : WorkerState) (conn : Connection) (netId : Nat)
    (modId modVersion : List Char) (side : ModPluginSide) :
    HStep st conn (modDeclHandler st conn netId modId modVersion side).1
      (modDeclHandler st conn netId modId modVersion side).2.1 := by
  simp only [modDeclHandler]
  split
  · exact HStep_refl st conn
  · exact ⟨rfl, rfl, fun _ => connSynced_setConn st _⟩

theorem hstep_ackPacket (now : Nat) (st : WorkerState) (conn : Connection) (n : Nat) :
    HStep st conn (ackPacketHandler now st conn n).1 (ackPacketHandler now st conn n).2.1 := by
  simp only [ackPacketHandler]
  split <;> exact ⟨rfl, rfl, fun _ => connSynced_setConn st _⟩

theorem hstep_disconnectPkt (st : WorkerState) (conn : Connection) :
    HStep st conn (disconnectPktHandler st conn).1 (disconnectPktHandler st conn).2.1 := by
  simp only [disconnectPktHandler]
  split
  · exact ⟨rfl, rfl, fun _ =>
      connSynced_of_absent _ _ (lookupA_removeA_self st.connections conn.rinfo)⟩
  · simp only [connDisconnect]
    split
    · exact ⟨rfl, rfl, fun _ =>
        connSynced_of_absent _ _ (lookupA_removeA_self st.connections conn.rinfo)⟩
    · exact ⟨rfl, rfl, fun _ =>
        connSynced_of_absent _ _ (lookupA_removeA_self _ _)⟩

theorem if_false_bool {α : Sort u_1} (a b : α) :
    (if (false : Bool) = true then a else b) = b := by simp

theorem if_true_bool {α : Sort u_1} (a b : α) :
    (if (true : Bool) = true then a else b) = a := by simp

/-- Compose "write `c2` back, then continue" into one `HStep`. -/
theorem HStep_step_ih {st : WorkerState} {conn : Connection} (c2 : Connection)
    (hr : c2.rinfo = conn.rinfo) (hn : c2.lastNonce = conn.lastNonce)
    {st3 : WorkerState} {c3 : Connection}
    (h : HStep (setConn st c2) c2 st3 c3) : HStep st conn st3 c3 :=
  HStep_trans ⟨hr, hn, fun _ => connSynced_setConn st c2⟩ h

theorem hstep_sendPluginChunks (now : Nat) :
    ∀ (chunks : List (List (List Char × List Char))) (st : WorkerState) (conn : Connection),
      HStep st conn (sendPluginChunks now st conn chunks).1
        (sendPluginChunks now st conn chunks).2.1 := by
  intro chunks
  induction chunks with
  | nil => intro st conn; exact HStep_refl st conn
  | cons chunk rest ih =>
    intro st conn
    simp only [sendPluginChunks, getNextNonce, connSendPacket, packetNonce, isAckPkt,
      if_false_bool]
    refine HStep_step_ih _ ?_ ?_ (ih _ _)
    · rfl
    · rfl

theorem hstep_hello (now : Nat) (st : WorkerState) (conn : Connection)
    (u : List Char) (v : Nat) (mc : Option Nat) :
    HStep st conn (helloHandler now st conn u v mc).1 (helloHandler now st conn u v mc).2.1 := by
  simp only [helloHandler, getNextNonce, connSendPacket, packetNonce, isAckPkt, if_false_bool]
  split
  · exact HStep_refl st conn
  · split
    · refine HStep_step_ih _ ?_ ?_ (hstep_connDisconnect _ _ _) <;> rfl
    · split
      · split
        · refine HStep_step_ih _ ?_ ?_ (hstep_connDisconnect _ _ _) <;> rfl
        · refine HStep_step_ih _ ?_ ?_ (HStep_step_ih _ ?_ ?_
            (hstep_sendPluginChunks now _ _ _)) <;> rfl
      · split
        · exact HStep_setConn_self st conn _ rfl rfl
        · refine HStep_step_ih _ ?_ ?_ (hstep_connDisconnect _ _ _) <;> rfl
        · split
          · exact HStep_setConn_self st conn _ rfl rfl
          · refine HStep_step_ih _ ?_ ?_ (hstep_connDisconnect _ _ _) <;> rfl

theorem hstep_hostOnly (st : WorkerState) (conn : Connection)
    (mkMsg : Room → Option ChildMsg) :
    HStep st conn (hostOnlyHandler st conn mkMsg).1 (hostOnlyHandler st conn mkMsg).2.1 := by
  simp only [hostOnlyHandler]
  split
  · exact HStep_refl st conn
  · split
    · split
      · exact HStep_refl st conn
      · exact HStep_refl st conn
    · exact hstep_connDisconnect st conn _

theorem hstep_runDisconnects :
    ∀ (rs : List DcReason) (st : WorkerState) (conn : Connection),
      HStep st conn (runDisconnects st conn rs).1 (runDisconnects st conn rs).2.1 := by
  intro rs
  induction rs with
  | nil => intro st conn; exact HStep_refl st conn
  | cons r rest ih =>
    intro st conn
    simp only [runDisconnects]
    have h1 := hstep_connDisconnect st conn r
    match hdc : connDisconnect st conn r with
    | (st1, c1, e1) =>
      rw [hdc] at h1
      have h2 := ih st1 c1
      match hrec : runDisconnects st1 c1 rest with
      | (st2, c2, e2) =>
        rw [hrec] at h2
        exact HStep_trans h1 h2

theorem hstep_handleRemoteJoin (st : WorkerState) (conn : Connection) (room : Room) :
    HStep st conn (handleRemoteJoin st conn room).1 (handleRemoteJoin st conn room).2.1 := by
  simp only [handleRemoteJoin, connJoinError]
  split
  · exact HStep_refl st conn
  · refine HStep_trans (HStep_setConn_self st conn { conn with room := some room.code } rfl rfl) ?_
    exact HStep_setRoom _ _ _

theorem hstep_joinGame (st : WorkerState) (conn : Connection) (code : Nat) :
    HStep st conn (joinGameHandler st conn code).1 (joinGameHandler st conn code).2.1 := by
  simp only [joinGameHandler]
  split
  · exact HStep_refl st conn
  · match hck : checkClientMods st.config conn with
    | (ok, dcs) =>
      have h1 := hstep_runDisconnects dcs st conn
      match hrd : runDisconnects st conn dcs with
      | (st1, c1, e1) =>
        rw [hrd] at h1
        dsimp only
        split
        · exact h1
        · split
          · simp only [connJoinError]
            exact h1
          · split
            · have h2 := hstep_connDisconnect st1 c1 (.code .banned)
              match hdc : connDisconnect st1 c1 (.code .banned) with
              | (st2, c2, e2) =>
                rw [hdc] at h2
                exact HStep_trans h1 h2
            · split
              · simp only [connJoinError]
                exact h1
              · split
                · simp only [connJoinError]
                  exact h1
                · split
                  · simp only [connJoinError]
                    exact h1
                  · exact HStep_trans h1 (hstep_handleRemoteJoin st1 c1 _)

theorem hstep_emitChild (st : WorkerState) (conn : Connection) (ch : ChildMsg) :
    HStep st conn (emitChild st conn ch).1 (emitChild st conn ch).2.1 := by
  cases ch with
  | joinGame code => exact hstep_joinGame st conn code
  | startGame => exact hstep_hostOnly st conn _
  | endGame r => exact hstep_hostOnly st conn _
  | alterGame t v => exact hstep_hostOnly st conn _
  | kickPlayer t b => exact hstep_hostOnly st conn _
  | modDecl netId modId ver side => exact hstep_modDecl st conn netId modId ver side
  | unhandled t => exact HStep_refl st conn

theorem hstep_emitChildren :
    ∀ (children : List ChildMsg) (st : WorkerState) (conn : Connection),
      HStep st conn (emitChildren st conn children).1 (emitChildren st conn children).2.1 := by
  intro children
  induction children with
  | nil => intro st conn; exact HStep_refl st conn
  | cons ch rest ih =>
    intro st conn
    simp only [emitChildren]
    have h1 := hstep_emitChild st conn ch
    match hec : emitChild st conn ch with
    | (st1, c1, e1) =>
      rw [hec] at h1
      have h2 := ih st1 c1
      match hrec : emitChildren st1 c1 rest with
      | (st2, c2, e2) =>
        rw [hrec] at h2
        exact HStep_trans h1 h2

theorem hstep_emitDecoded (now : Nat) (st : WorkerState) (conn : Connection) (pkt : RootPacket) :
    HStep st conn (emitDecoded now st conn pkt).1 (emitDecoded now st conn pkt).2.1 := by
  cases pkt with
  | reliable n children =>
    simp only [emitDecoded]
    have h1 := hstep_ackReply now st conn n
    match har : ackReplyHandler now st conn n with
    | (st1, c1, e1) =>
      rw [har] at h1
      have h2 := hstep_emitChildren children st1 c1
      match hec : emitChildren st1 c1 children with
      | (st2, c2, e2) =>
        rw [hec] at h2
        exact HStep_trans h1 h2
  | helloPkt n u v mc =>
    simp only [emitDecoded]
    have h1 := hstep_ackReply now st conn n
    match har : ackReplyHandler now st conn n with
    | (st1, c1, e1) =>
      rw [har] at h1
      have h2 := hstep_hello now st1 c1 u v mc
      match hh : helloHandler now st1 c1 u v mc with
      | (st2, c2, e2) =>
        rw [hh] at h2
        exact HStep_trans h1 h2
  | ping n => exact hstep_ackReply now st conn n
  | ack n => exact hstep_ackPacket now st conn n
  | disconnectPkt => exact hstep_disconnectPkt st conn

/-! ### Claims C2 and C3: the reliability layer -/

/-- Any sequence of `sendPacket` calls on one connection (each with a send
time). -/
def sendSeq : WorkerState → Connection → List (Nat × RootPacket) →
    WorkerState × Connection × List Effect
  | st, conn, [] => (st, conn, [])
  | st, conn, (now, pkt) :: rest =>
      match connSendPacket now st conn pkt with
      | (st1, c1, e1) =>
          match sendSeq st1 c1 rest with
          | (st2, c2, e2) => (st2, c2, e1 ++ e2)

theorem sendPacket_len_le (now : Nat) (st : WorkerState) (conn : Connection) (pkt : RootPacket)
    (h : conn.sentPackets.length ≤ 8) :
    (connSendPacket now st conn pkt).2.1.sentPackets.length ≤ 8 := by
  rcases hn : packetNonce pkt with _ | n
  · simpa [connSendPacket, hn] using h
  · by_cases ha : isAckPkt pkt = true
    · simpa [connSendPacket, hn, ha] using h
    · simp only [Bool.not_eq_true] at ha
      simp [connSendPacket, hn, ha, List.length_take]

/-- C3: the in-flight deque is maintained by prepending the new `SentPacket`
and truncating to 8 (newest first, entries beyond 8 discarded); a sent
Acknowledge changes neither the connection nor the registry; and across any
sequence of `sendPacket` calls the deque's length never exceeds 8. -/
theorem c3_sent_deque_invariant :
    (∀ (now : Nat) (st : WorkerState) (conn : Connection) (pkt : RootPacket) (n : Nat),
        packetNonce pkt = some n → isAckPkt pkt = false →
        (connSendPacket now st conn pkt).2.1.sentPackets =
          (SentPacket.mk n (writeBytes pkt) now false :: conn.sentPackets).take 8)
    ∧ (∀ (now : Nat) (st : WorkerState) (conn : Connection) (n : Nat),
        connSendPacket now st conn (.ack n) =
          (st, conn, [.sendBytes conn.rinfo (writeBytes (.ack n))]))
    ∧ (∀ (sends : List (Nat × RootPacket)) (st : WorkerState) (conn : Connection),
        conn.sentPackets.length ≤ 8 →
        (sendSeq st conn sends).2.1.sentPackets.length ≤ 8) := by
  refine ⟨?_, ?_, ?_⟩
  · intro now st conn pkt n hn ha
    simp [connSendPacket, hn, ha]
  · intro now st conn n
    simp [connSendPacket, packetNonce, isAckPkt]
  · intro sends
    induction sends with
    | nil => intro st conn h; exact h
    | cons np rest ih =>
      intro st conn h
      match np with
      | (now, pkt) =>
        simp only [sendSeq]
        have h1 := sendPacket_len_le now st conn pkt h
        match hcs : connSendPacket now st conn pkt with
        | (st1, c1, e1) =>
          rw [hcs] at h1
          have h2 := ih st1 c1 h1
          match hss : sendSeq st1 c1 rest with
          | (st2, c2, e2) =>
            rw [hss] at h2
            exact h2

/-- Concrete instantiation of `c3_sent_deque_invariant`. -/
theorem c3_witness :
    (connSendPacket 5 { config := {} } (newConnection ⟨("a").data, 1⟩ 1) (.reliable 7 [])).2.1.sentPackets
        = (SentPacket.mk 7 (writeBytes (.reliable 7 [])) 5 false
            :: (newConnection ⟨("a").data, 1⟩ 1).sentPackets).take 8
    ∧ connSendPacket 5 { config := {} } (newConnection ⟨("a").data, 1⟩ 1) (.ack 7)
        = ({ config := {} }, newConnection ⟨("a").data, 1⟩ 1,
           [.sendBytes (newConnection ⟨("a").data, 1⟩ 1).rinfo (writeBytes (.ack 7))])
    ∧ (sendSeq { config := {} } (newConnection ⟨("a").data, 1⟩ 1)
         ((List.range 12).map (fun i => (i, RootPacket.ping (i + 1))))).2.1.sentPackets.length ≤ 8 := by
  refine ⟨c3_sent_deque_invariant.1 5 _ _ _ 7 rfl rfl,
          c3_sent_deque_invariant.2.1 5 _ _ 7,
          c3_sent_deque_invariant.2.2 _ _ _ (by decide)⟩

/-- The filter of the tick's retransmit loop. -/
def needsRetransmit (now : Nat) (p : SentPacket) : Bool :=
  decide (p.acked = false ∧ 500 < now - p.sentAt)

/-- The in-flight deque right after the tick's Ping was tracked
(`unshift` + `splice(8)`): the Ping is prepended and the 8th-oldest entry
discarded. -/
def pingDeque (now : Nat) (conn : Connection) : List SentPacket :=
  (SentPacket.mk (conn.nonceIdx + 1) (writeBytes (.ping (conn.nonceIdx + 1))) now false
    :: conn.sentPackets).take 8

theorem retransmitLoop_spec (now : Nat) (rinfo : RemoteInfo) :
    ∀ (l : List SentPacket),
      retransmitLoop now rinfo l =
        (l.map (fun p => if needsRetransmit now p then { p with sentAt := now } else p),
         (l.filter (needsRetransmit now)).map (fun p => Effect.sendBytes rinfo p.buffer)) := by
  intro l
  induction l with
  | nil => rfl
  | cons p ps ih =>
    simp only [retransmitLoop, ih]
    by_cases h : p.acked = false ∧ 500 < now - p.sentAt
    · simp [List.filter_cons, needsRetransmit, h]
    · simp [List.filter_cons, needsRetransmit, h]

/-- C2 (amended): on each tick, a connection whose 8-entry in-flight deque is
entirely unacked is disconnected and removed — nothing is pinged or
retransmitted for it; every other connection is sent a fresh-nonce Ping
(tracked in the deque, discarding the oldest entry beyond 8), and then every
unacked packet of the updated deque older than 500 ms is retransmitted with
its exact stored bytes and its `sentAt` reset to now. -/
theorem c2_tick_retransmit_and_dead :
    (∀ (now : Nat) (conn : Connection),
        conn.sentPackets.length = 8 →
        conn.sentPackets.all (fun p => !p.acked) = true →
        conn.sentDisconnect = false →
        tickConn now conn = (none, [.disconnectEff conn.clientId (.code .noneReason)]))
    ∧ (∀ (now : Nat) (conn : Connection),
        ¬(conn.sentPackets.length = 8 ∧ conn.sentPackets.all (fun p => !p.acked) = true) →
        tickConn now conn =
          (some { conn with
                    nonceIdx := conn.nonceIdx + 1,
                    sentPackets := (pingDeque now conn).map
                      (fun p => if needsRetransmit now p then { p with sentAt := now } else p) },
           Effect.sendBytes conn.rinfo (writeBytes (.ping (conn.nonceIdx + 1))) ::
             ((pingDeque now conn).filter (needsRetransmit now)).map
               (fun p => Effect.sendBytes conn.rinfo p.buffer))) := by
  constructor
  · intro now conn hlen hall hsd
    simp [tickConn, hlen, hall, hsd]
  · intro now conn hnd
    simp only [tickConn, if_neg hnd, getNextNonce]
    rw [retransmitLoop_spec]
    rfl

/-- Apply `c2_tick_retransmit_and_dead` at concrete connections. -/
def c2DeadConn : Connection :=
  { newConnection ⟨("1.1.1.1").data, 1⟩ 1 with
      sentPackets := (List.range 8).map (fun i => ⟨i + 1, [1, i], 0, false⟩) }

def c2AliveConn : Connection :=
  { newConnection ⟨("1.1.1.1").data, 1⟩ 2 with
      sentPackets := [⟨1, [1, 0], 0, true⟩, ⟨2, [1, 2], 0, false⟩, ⟨3, [1, 3], 900, false⟩] }

theorem c2_witness :
    c2DeadConn.sentPackets.length = 8
    ∧ c2DeadConn.sentPackets.all (fun p => !p.acked) = true
    ∧ tickConn 1000 c2DeadConn = (none, [.disconnectEff 1 (.code .noneReason)])
    ∧ tickConn 1000 c2AliveConn =
        (some { c2AliveConn with
                  nonceIdx := 1,
                  sentPackets := (pingDeque 1000 c2AliveConn).map
                    (fun p => if needsRetransmit 1000 p then { p with sentAt := 1000 } else p) },
         Effect.sendBytes c2AliveConn.rinfo (writeBytes (.ping 1)) ::
           ((pingDeque 1000 c2AliveConn).filter (needsRetransmit 1000)).map
             (fun p => Effect.sendBytes c2AliveConn.rinfo p.buffer)) := by
  refine ⟨by decide, by decide,
          c2_tick_retransmit_and_dead.1 1000 c2DeadConn (by decide) (by decide) (by decide),
          c2_tick_retransmit_and_dead.2 1000 c2AliveConn (by decide)⟩

/-- C2 counterexample: a connection with 8 unacked in-flight packets, every
one older than 500 ms. The claim asserts each such packet is retransmitted on
the tick; the code instead disconnects the connection first (`continue`) and
sends nothing — zero UDP sends, no ping, no retransmission. -/
theorem c2_counterexample :
    c2DeadConn.sentPackets.length = 8
    ∧ c2DeadConn.sentPackets.all
        (fun p => decide (p.acked = false ∧ 500 < 1000 - p.sentAt)) = true
    ∧ tickConn 1000 c2DeadConn = (none, [.disconnectEff 1 (.code .noneReason)])
    ∧ (tickConn 1000 c2DeadConn).2.countP
        (fun e => match e with | .sendBytes _ _ => true | _ => false) = 0 := by
  refine ⟨by decide, by decide, by decide, by decide⟩

/-! ### Claim C5: host-only root messages -/

/-- The observable outcome of the host-only guard firing: the sender is
removed from the registry with a `Hacking` disconnect, and nothing else — in
particular no `broadcastEff` is emitted. -/
def hackingDisconnect (st : WorkerState) (conn : Connection) :
    WorkerState × Connection × List Effect :=
  ({ st with connections := removeA st.connections conn.rinfo },
   { conn with sentDisconnect := true },
   [.disconnectEff conn.clientId (.code .hacking)])

/-- C5: a room member that is not the room's current host and sends
StartGame is disconnected with reason `Hacking` and no StartGame is broadcast
to the room (the effect list is exactly the disconnect); the same holds for
EndGame, AlterGame and KickPlayer. -/
theorem c5_host_only_guard (st : WorkerState) (conn : Connection) (room : Room) (code : Nat)
    (hroom : conn.room = some code)
    (hlook : lookupA st.rooms code = some room)
    (hmem : room.players.contains conn.clientId = true)
    (hnothost : ¬(room.hostid = conn.clientId))
    (hnd : conn.sentDisconnect = false) :
    emitChild st conn .startGame = hackingDisconnect st conn
    ∧ (∀ r, emitChild st conn (.endGame r) = hackingDisconnect st conn)
    ∧ (∀ t v, emitChild st conn (.alterGame t v) = hackingDisconnect st conn)
    ∧ (∀ t b, emitChild st conn (.kickPlayer t b) = hackingDisconnect st conn) := by
  have hmem2 : conn.clientId ∈ room.players := by simpa using hmem
  have key : ∀ mkMsg : Room → Option ChildMsg,
      hostOnlyHandler st conn mkMsg = hackingDisconnect st conn := by
    intro mkMsg
    simp [hostOnlyHandler, getPlayerRoom, hroom, hlook, hmem2, hnothost, connDisconnect,
      hnd, hackingDisconnect]
  refine ⟨?_, fun r => ?_, fun t v => ?_, fun t b => ?_⟩ <;>
    simp only [emitChild] <;> exact key _

def c5Room : Room := { code := 50, hostid := 2, players := [1, 2] }

def c5Conn : Connection :=
  { newConnection ⟨("1.2.3.4").data, 100⟩ 1 with hasIdentified := true, room := some 50 }

def c5St : WorkerState :=
  { config := { validVersions := [42] },
    connections := [(c5Conn.rinfo, c5Conn)], rooms := [(50, c5Room)] }

/-- Apply `c5_host_only_guard` at a concrete non-host room member. -/
theorem c5_witness :
    c5Conn.room = some 50
    ∧ lookupA c5St.rooms 50 = some c5Room
    ∧ c5Room.players.contains c5Conn.clientId = true
    ∧ ¬(c5Room.hostid = c5Conn.clientId)
    ∧ c5Conn.sentDisconnect = false
    ∧ emitChild c5St c5Conn .startGame = hackingDisconnect c5St c5Conn :=
  ⟨by decide, by decide, by decide, by decide, by decide,
   (c5_host_only_guard c5St c5Conn c5Room 50 (by decide) (by decide) (by decide)
      (by decide) (by decide)).1⟩

/-! ### Claim C6: the server-wide mod-policy check -/

/-- Policy `{modA: true}` with `allowExtraMods`, `requireHostMods` off. -/
def c6Cfg : Config :=
  { validVersions := [42],
    reactor := .configured true false true true [(("modA").data, .allowed)] }

/-- A reactor client that has completed its hello and declared no mods. -/
def c6Conn : Connection :=
  { newConnection ⟨("1.2.3.4").data, 100⟩ 5 with hasIdentified := true, usingReactor := true }

def c6Room : Room := { code := 77, hostid := 2, players := [2], maxPlayers := 10 }

def c6St : WorkerState :=
  { config := c6Cfg, connections := [(c6Conn.rinfo, c6Conn)],
    rooms := [(77, c6Room)], lastClientId := 5 }

/-- C6 (code bug): with policy `{modA: true}` and a reactor client declaring
no mods, `checkClientMods` does call `connection.disconnect` with the
localized missing-required-mod message naming `modA` and version `any` — but
the branch lacks a `return false`, so the check returns `true` (reports
success, contradicting the claim and the function's own sibling branches),
and the JoinGame handler proceeds: the already-disconnected client is removed
from the registry yet still added to the room's member list. -/
theorem c6_mod_check_reports_success_bug :
    checkClientMods c6Cfg c6Conn =
      (true, [.localized (.missingRequiredMod (("modA").data) (("any").data))])
    ∧ (joinGameHandler c6St c6Conn 77).2.2 =
        [.disconnectEff 5 (.localized (.missingRequiredMod (("modA").data) (("any").data))),
         .joinedGame 77 5]
    ∧ lookupA (joinGameHandler c6St c6Conn 77).1.rooms 77 =
        some { code := 77, hostid := 2, players := [2, 5], maxPlayers := 10 }
    ∧ lookupA (joinGameHandler c6St c6Conn 77).1.connections c6Conn.rinfo = none := by
  refine ⟨by decide, by decide, by decide, by decide⟩

/-! ### Claim C7: connection creation for unknown endpoints -/

theorem lookupA_updateA_isSome {κ ρ : Type} [DecidableEq κ] (l : List (κ × ρ)) (k : κ) (v : ρ) :
    (lookupA (updateA l k v) k).isSome = (lookupA l k).isSome := by
  rw [lookupA_updateA_self]
  cases lookupA l k <;> rfl

theorem sendPluginChunks_presence (now : Nat) :
    ∀ (chunks : List (List (List Char × List Char))) (st : WorkerState) (conn : Connection)
      (k : RemoteInfo), conn.rinfo = k →
      (lookupA st.connections k).isSome = true →
      (lookupA (sendPluginChunks now st conn chunks).1.connections k).isSome = true := by
  intro chunks
  induction chunks with
  | nil => intro st conn k _ h; exact h
  | cons chunk rest ih =>
    intro st conn k hk h
    simp only [sendPluginChunks, getNextNonce, connSendPacket, packetNonce, isAckPkt,
      if_false_bool]
    refine ih _ _ k hk ?_
    show (lookupA (updateA st.connections _ _) k).isSome = true
    rw [← hk]
    rw [lookupA_updateA_isSome]
    rw [hk]
    exact h

/-- Whether the hello handler rejects (disconnects) a fresh hello with the
given client version and mod count under the configuration. -/
def helloRejected (cfg : Config) (clientver : Nat) (modcount : Option Nat) : Bool :=
  if cfg.validVersions.contains clientver = false then true
  else
    match modcount, cfg.reactor with
    | some _, .off => true
    | some _, _ => false
    | none, .off => false
    | none, .enabled => true
    | none, .configured allowNormalClients _ _ _ _ => !allowNormalClients


theorem isSome_setConn (st : WorkerState) (c2 : Connection) (k : RemoteInfo)
    (hk : c2.rinfo = k) (h : (lookupA st.connections k).isSome = true) :
    (lookupA (setConn st c2).connections k).isSome = true := by
  subst hk
  show (lookupA (updateA st.connections c2.rinfo c2) c2.rinfo).isSome = true
  rw [lookupA_updateA_isSome]
  exact h

theorem hello_presence_handler (now : Nat) (u : List Char) (v : Nat) (mc : Option Nat)
    (st2 : WorkerState) (c2 : Connection)
    (hid : c2.hasIdentified = false) (hsd : c2.sentDisconnect = false)
    (hpres : (lookupA st2.connections c2.rinfo).isSome = true) :
    (lookupA (helloHandler now st2 c2 u v mc).1.connections c2.rinfo).isSome
      = !helloRejected st2.config v mc := by
  simp only [helloHandler, hid, if_false_bool, helloRejected]
  by_cases hv : st2.config.validVersions.contains v = false
  · rw [if_pos hv, if_pos hv]
    simp only [connDisconnect, hsd, if_false_bool]
    show (lookupA (removeA _ c2.rinfo) c2.rinfo).isSome = _
    rw [lookupA_removeA_self]
    rfl
  · rw [if_neg hv, if_neg hv]
    cases mc with
    | some m =>
      simp only [Option.isSome, if_true_bool]
      cases hre : st2.config.reactor with
      | off =>
        dsimp only
        simp only [connDisconnect, hsd, if_false_bool]
        show (lookupA (removeA _ c2.rinfo) c2.rinfo).isSome = _
        rw [lookupA_removeA_self]
        rfl
      | enabled =>
        dsimp only
        exact sendPluginChunks_presence now _ _ _ c2.rinfo rfl
          (isSome_setConn _ _ _ rfl (isSome_setConn _ _ _ rfl hpres))
      | configured a b d e f =>
        dsimp only
        exact sendPluginChunks_presence now _ _ _ c2.rinfo rfl
          (isSome_setConn _ _ _ rfl (isSome_setConn _ _ _ rfl hpres))
    | none =>
      simp only [Option.isSome, if_false_bool]
      cases hre : st2.config.reactor with
      | off =>
        dsimp only
        exact isSome_setConn _ _ _ rfl hpres
      | enabled =>
        dsimp only
        simp only [connDisconnect, hsd, if_false_bool]
        show (lookupA (removeA _ c2.rinfo) c2.rinfo).isSome = _
        rw [lookupA_removeA_self]
        rfl
      | configured allowNormalClients b d e f =>
        dsimp only
        cases allowNormalClients with
        | true =>
          exact isSome_setConn _ _ _ rfl hpres
        | false =>
          simp only [connDisconnect, hsd, if_false_bool]
          show (lookupA (removeA _ c2.rinfo) c2.rinfo).isSome = _
          rw [lookupA_removeA_self]
          rfl

theorem hello_presence (now : Nat) (n : Nat) (u : List Char) (v : Nat) (mc : Option Nat)
    (st1 : WorkerState) (c : Connection)
    (hid : c.hasIdentified = false) (hsd : c.sentDisconnect = false)
    (hpres : (lookupA st1.connections c.rinfo).isSome = true) :
    (lookupA (emitDecoded now st1 c (.helloPkt n u v mc)).1.connections c.rinfo).isSome
      = !helloRejected st1.config v mc := by
  show (lookupA (helloHandler now (ackReplyHandler now st1 c n).1
      (ackReplyHandler now st1 c n).2.1 u v mc).1.connections c.rinfo).isSome = _
  exact hello_presence_handler now u v mc _ _ hid hsd (isSome_setConn _ _ _ rfl hpres)

/-- C7 (amended): for a datagram from an endpoint with no cached connection:
a malformed datagram or one with an unknown root tag DOES add a fresh entry
to the registry (the error paths call `getOrCreateConnection` for logging);
a successfully parsed non-hello datagram leaves the state unchanged; and a
hello datagram creates an entry that remains in the registry exactly when the
hello handler does not reject it (invalid version or reactor policy). -/
theorem c7_connection_creation (now : Nat) (st : WorkerState) (rinfo : RemoteInfo)
    (hnone : lookupA st.connections rinfo = none) :
    (∀ bytes, handleMessage now st rinfo ⟨bytes, .failed⟩ =
        ({ st with lastClientId := st.lastClientId + 1,
                   connections :=
                     st.connections ++ [(rinfo, newConnection rinfo (st.lastClientId + 1))] }, []))
    ∧ (∀ bytes, handleMessage now st rinfo ⟨bytes, .unknownRoot⟩ =
        ({ st with lastClientId := st.lastClientId + 1,
                   connections :=
                     st.connections ++ [(rinfo, newConnection rinfo (st.lastClientId + 1))] }, []))
    ∧ (∀ bytes pkt, isHelloPkt pkt = false →
        handleMessage now st rinfo ⟨bytes, .parsed pkt⟩ = (st, []))
    ∧ (∀ bytes n u v mc,
        (lookupA (handleMessage now st rinfo
            ⟨bytes, .parsed (.helloPkt n u v mc)⟩).1.connections rinfo).isSome
          = !helloRejected st.config v mc) := by
  refine ⟨?_, ?_, ?_, ?_⟩
  · intro bytes
    simp [handleMessage, getOrCreateConnection, hnone]
  · intro bytes
    simp [handleMessage, getOrCreateConnection, hnone]
  · intro bytes pkt hnh
    cases pkt <;> simp_all [handleMessage, hnone, isHelloPkt]
  · intro bytes n u v mc
    simp only [handleMessage, hnone, packetNonce, isHelloPkt, Bool.true_eq_false, if_false_bool]
    rw [if_neg not_false]
    have hp : (lookupA (st.connections ++
        [(rinfo, { newConnection rinfo (st.lastClientId + 1) with lastNonce := n })]) rinfo).isSome
          = true := by
      rw [lookupA_append_none _ _ _ hnone]
      simp [lookupA]
    exact hello_presence now n u v mc
      { st with
        lastClientId := st.lastClientId + 1,
        connections := st.connections ++
          [(rinfo, { newConnection rinfo (st.lastClientId + 1) with lastNonce := n })] }
      { newConnection rinfo (st.lastClientId + 1) with lastNonce := n }
      rfl rfl hp

def c7St : WorkerState := { config := { validVersions := [42] } }

def c7Addr : RemoteInfo := ⟨("9.9.9.9").data, 9⟩

/-- Apply `c7_connection_creation` at an empty registry. -/
theorem c7_witness :
    lookupA c7St.connections c7Addr = none
    ∧ handleMessage 0 c7St c7Addr ⟨[99], .failed⟩ =
        ({ c7St with
           lastClientId := c7St.lastClientId + 1,
           connections := c7St.connections
             ++ [(c7Addr, newConnection c7Addr (c7St.lastClientId + 1))] }, [])
    ∧ handleMessage 0 c7St c7Addr ⟨[12, 0, 1, 0], .parsed (.ping 1)⟩ = (c7St, [])
    ∧ (lookupA (handleMessage 0 c7St c7Addr
          ⟨[8, 0, 1, 42], .parsed (.helloPkt 1 [] 42 none)⟩).1.connections c7Addr).isSome
        = !helloRejected c7St.config 42 none :=
  ⟨rfl,
   (c7_connection_creation 0 c7St c7Addr rfl).1 [99],
   (c7_connection_creation 0 c7St c7Addr rfl).2.2.1 [12, 0, 1, 0] (.ping 1) rfl,
   (c7_connection_creation 0 c7St c7Addr rfl).2.2.2 [8, 0, 1, 42] 1 [] 42 none⟩

/-- C7 counterexample: a malformed datagram (and likewise one with an
unknown root tag) from an unknown endpoint does NOT leave the connections
map unchanged — the logging path `getOrCreateConnection` inserts a fresh
entry. -/
theorem c7_counterexample :
    c7St.connections.length = 0
    ∧ (handleMessage 0 c7St c7Addr ⟨[99], .failed⟩).1.connections.length = 1
    ∧ (handleMessage 0 c7St c7Addr ⟨[99], .unknownRoot⟩).1.connections.length = 1 := by
  refine ⟨by decide, by decide, by decide⟩

/-! ### Claim C1: duplicate reliable packets -/

/-- Number of Acknowledge(n) datagrams sent to the endpoint. -/
def ackSendCount (rinfo : RemoteInfo) (n : Nat) (effs : List Effect) : Nat :=
  effs.count (.sendBytes rinfo (writeBytes (.ack n)))

/-- Is this effect a child-message emission? -/
def isDeliver : Effect → Bool
  | .deliverChild _ _ => true
  | _ => false

/-- Number of child messages emitted to handlers. -/
def deliverCount (effs : List Effect) : Nat := effs.countP isDeliver

/-- A child message with no registered listener. -/
def isUnhandledChild : ChildMsg → Bool
  | .unhandled _ => true
  | _ => false

theorem emitChildren_unhandled :
    ∀ (children : List ChildMsg) (st : WorkerState) (conn : Connection),
      (∀ ch ∈ children, isUnhandledChild ch = true) →
      emitChildren st conn children =
        (st, conn, children.map (fun ch => Effect.deliverChild conn.clientId ch)) := by
  intro children
  induction children with
  | nil => intro st conn _; rfl
  | cons ch rest ih =>
    intro st conn h
    have hch := h ch (by simp)
    cases ch <;> simp [isUnhandledChild] at hch
    simp only [emitChildren, emitChild]
    rw [ih st conn (fun x hx => h x (List.mem_cons_of_mem _ hx))]
    rfl

theorem count_deliver_map (k : Nat) :
    ∀ (children : List ChildMsg),
      deliverCount (children.map (fun ch => Effect.deliverChild k ch)) = children.length := by
  intro children
  induction children with
  | nil => rfl
  | cons ch rest ih =>
    simp only [List.map_cons, deliverCount, List.countP_cons] at ih ⊢
    simp [isDeliver, ih]

/-- C1 (amended): a connection receiving the same reliable datagram twice
(nonce `n` fresh the first time, first child-tag byte not 0xff) acknowledges
and emits its children exactly once: the duplicate is discarded without a
second Acknowledge — one Acknowledge(n) in total, each child emitted once,
and the second call produces no effects at all. -/
theorem c1_duplicate_reliable_single_ack
    (now1 now2 : Nat) (st : WorkerState) (rinfo : RemoteInfo) (c : Connection)
    (bytes : List Nat) (n : Nat) (children : List ChildMsg)
    (hc : lookupA st.connections rinfo = some c)
    (hrin : c.rinfo = rinfo)
    (hfresh : c.lastNonce < n)
    (hbyte : ¬(bytes.get? 5 = some 255))
    (hch : ∀ ch ∈ children, isUnhandledChild ch = true) :
    (handleMessage now2 (handleMessage now1 st rinfo ⟨bytes, .parsed (.reliable n children)⟩).1
        rinfo ⟨bytes, .parsed (.reliable n children)⟩).2 = []
    ∧ ackSendCount rinfo n
        ((handleMessage now1 st rinfo ⟨bytes, .parsed (.reliable n children)⟩).2
          ++ (handleMessage now2
                (handleMessage now1 st rinfo ⟨bytes, .parsed (.reliable n children)⟩).1
                rinfo ⟨bytes, .parsed (.reliable n children)⟩).2) = 1
    ∧ deliverCount
        ((handleMessage now1 st rinfo ⟨bytes, .parsed (.reliable n children)⟩).2
          ++ (handleMessage now2
                (handleMessage now1 st rinfo ⟨bytes, .parsed (.reliable n children)⟩).1
                rinfo ⟨bytes, .parsed (.reliable n children)⟩).2) = children.length := by
  subst hrin
  have hnle : ¬(n ≤ c.lastNonce ∧ ¬(bytes.get? 5 = some 255)) := by
    intro hcon
    exact absurd hcon.1 (Nat.not_le.mpr hfresh)
  have hstep1 : handleMessage now1 st c.rinfo ⟨bytes, .parsed (.reliable n children)⟩ =
      (setConn (setConn st { c with lastNonce := n })
         { c with lastNonce := n, receivedPackets := (n :: c.receivedPackets).take 8 },
       Effect.sendBytes c.rinfo (writeBytes (.ack n)) ::
         children.map (fun ch => Effect.deliverChild c.clientId ch)) := by
    simp only [handleMessage, hc, packetNonce, isAckPkt, if_false_bool, if_neg hnle]
    simp only [emitDecoded, ackReplyHandler, connSendPacket, packetNonce, isAckPkt, if_true_bool,
      if_true]
    rw [emitChildren_unhandled children _ _ hch]
    rfl
  have hlook2 : lookupA (setConn (setConn st { c with lastNonce := n })
      { c with lastNonce := n, receivedPackets := (n :: c.receivedPackets).take 8 }).connections
        c.rinfo =
      some { c with lastNonce := n, receivedPackets := (n :: c.receivedPackets).take 8 } := by
    show lookupA (updateA (updateA st.connections c.rinfo { c with lastNonce := n }) c.rinfo
      { c with lastNonce := n, receivedPackets := (n :: c.receivedPackets).take 8 }) c.rinfo = _
    rw [lookupA_updateA_self, lookupA_updateA_self, hc]
    rfl
  have hstep2 : handleMessage now2
      (handleMessage now1 st c.rinfo ⟨bytes, .parsed (.reliable n children)⟩).1
      c.rinfo ⟨bytes, .parsed (.reliable n children)⟩ =
      ((handleMessage now1 st c.rinfo ⟨bytes, .parsed (.reliable n children)⟩).1, []) := by
    rw [hstep1]
    simp only [handleMessage, hlook2, packetNonce, isAckPkt, if_false_bool]
    rw [if_pos ⟨Nat.le_refl n, hbyte⟩]
  refine ⟨by rw [hstep2], ?_, ?_⟩
  · rw [hstep2, hstep1]
    simp only [List.append_nil]
    show (Effect.sendBytes c.rinfo (writeBytes (.ack n)) ::
      children.map (fun ch => Effect.deliverChild c.clientId ch)).count
        (Effect.sendBytes c.rinfo (writeBytes (.ack n))) = 1
    rw [List.count_cons_self]
    have hz : (children.map (fun ch => Effect.deliverChild c.clientId ch)).count
        (Effect.sendBytes c.rinfo (writeBytes (.ack n))) = 0 := by
      rw [List.count_eq_zero]
      intro hmem
      rcases List.mem_map.mp hmem with ⟨x, _, hx⟩
      exact absurd hx (by simp)
    rw [hz]
  · rw [hstep2, hstep1]
    simp only [List.append_nil]
    show deliverCount (Effect.sendBytes c.rinfo (writeBytes (.ack n)) ::
      children.map (fun ch => Effect.deliverChild c.clientId ch)) = _
    simp only [deliverCount, List.countP_cons]
    have := count_deliver_map c.clientId children
    simp only [deliverCount] at this
    simp [isDeliver, this]

def c1Addr : RemoteInfo := ⟨("1.2.3.4").data, 100⟩

def c1Conn : Connection := { newConnection c1Addr 1 with hasIdentified := true }

def c1St : WorkerState :=
  { config := { validVersions := [42] }, connections := [(c1Addr, c1Conn)], lastClientId := 1 }

def c1Dg : Datagram := ⟨[1, 0, 5, 3, 0, 7], .parsed (.reliable 5 [.unhandled 7])⟩

/-- Apply `c1_duplicate_reliable_single_ack` at a concrete connection and
datagram. -/
theorem c1_witness :
    lookupA c1St.connections c1Addr = some c1Conn
    ∧ c1Conn.lastNonce < 5
    ∧ ¬(c1Dg.bytes.get? 5 = some 255)
    ∧ ackSendCount c1Addr 5
        ((handleMessage 10 c1St c1Addr c1Dg).2
          ++ (handleMessage 11 (handleMessage 10 c1St c1Addr c1Dg).1 c1Addr c1Dg).2) = 1 :=
  ⟨by decide, by decide, by decide,
   (c1_duplicate_reliable_single_ack 10 11 c1St c1Addr c1Conn [1, 0, 5, 3, 0, 7] 5
      [.unhandled 7] (by decide) (by decide) (by decide) (by decide) (by decide)).2.1⟩

/-- C1 counterexample: sending Reliable(nonce=5) twice yields ONE
Acknowledge(5) — not two: the duplicate is discarded before the
acknowledgement listener runs (and the child handlers do run exactly
once). -/
theorem c1_counterexample :
    ackSendCount c1Addr 5
        ((handleMessage 10 c1St c1Addr c1Dg).2
          ++ (handleMessage 11 (handleMessage 10 c1St c1Addr c1Dg).1 c1Addr c1Dg).2) = 1
    ∧ ¬(ackSendCount c1Addr 5
        ((handleMessage 10 c1St c1Addr c1Dg).2
          ++ (handleMessage 11 (handleMessage 10 c1St c1Addr c1Dg).1 c1Addr c1Dg).2) = 2)
    ∧ deliverCount
        ((handleMessage 10 c1St c1Addr c1Dg).2
          ++ (handleMessage 11 (handleMessage 10 c1St c1Addr c1Dg).1 c1Addr c1Dg).2) = 1
    ∧ (handleMessage 11 (handleMessage 10 c1St c1Addr c1Dg).1 c1Addr c1Dg).2 = [] := by
  refine ⟨by decide, by decide, by decide, by decide⟩

/-! ### Claim C4: monotonicity of the last-seen nonce -/

/-- C4 (amended): provided byte 5 of the datagram is not 0xff (the reactor
mod-declaration exception applies to ANY nonce, not only nonce 0): a
nonce-bearing non-Acknowledge packet whose nonce is at most the connection's
last-seen nonce is discarded entirely (state unchanged, no effects, in
particular not handled); and across any inbound datagram, the connection's
`lastNonce`, when the connection survives, never decreases. -/
theorem c4_lastNonce_monotone
    (now : Nat) (st : WorkerState) (rinfo : RemoteInfo) (c : Connection) (dg : Datagram)
    (hc : lookupA st.connections rinfo = some c)
    (hrin : c.rinfo = rinfo)
    (hsync : connSynced st c)
    (hbyte : ¬(dg.bytes.get? 5 = some 255)) :
    (∀ pkt nonce, dg.parsed = .parsed pkt → packetNonce pkt = some nonce →
        isAckPkt pkt = false → nonce ≤ c.lastNonce →
        handleMessage now st rinfo dg = (st, []))
    ∧ (∀ e, lookupA (handleMessage now st rinfo dg).1.connections rinfo = some e →
        c.lastNonce ≤ e.lastNonce) := by
  subst hrin
  obtain ⟨bts, prs⟩ := dg
  simp only at hbyte
  constructor
  · intro pkt nonce hdg hn ha hle
    simp only at hdg
    subst hdg
    simp only [handleMessage, hc, hn, ha, if_false_bool]
    rw [if_pos ⟨hle, hbyte⟩]
  · intro e he
    match prs, he with
    | .failed, he =>
      simp only [handleMessage, getOrCreateConnection, hc] at he
      cases he
      exact Nat.le_refl _
    | .unknownRoot, he =>
      simp only [handleMessage, getOrCreateConnection, hc] at he
      cases he
      exact Nat.le_refl _
    | .parsed pkt, he =>
      rcases hn : packetNonce pkt with _ | nonce
      · simp only [handleMessage, hc, hn] at he
        have hh := hstep_emitDecoded now st c pkt
        obtain ⟨hrin2, hln, hsy⟩ := hh
        have hsy2 := hsy hsync
        have he3 : lookupA (emitDecoded now st c pkt).1.connections
            (emitDecoded now st c pkt).2.1.rinfo = some e := by rw [hrin2]; exact he
        rw [hsy2 e he3, hln]
      · by_cases hack : isAckPkt pkt = true
        · simp only [handleMessage, hc, hn, hack, if_true_bool] at he
          have hh := hstep_emitDecoded now st c pkt
          obtain ⟨hrin2, hln, hsy⟩ := hh
          have hsy2 := hsy hsync
          have he3 : lookupA (emitDecoded now st c pkt).1.connections
              (emitDecoded now st c pkt).2.1.rinfo = some e := by rw [hrin2]; exact he
          rw [hsy2 e he3, hln]
        · simp only [Bool.not_eq_true] at hack
          by_cases hdup : nonce ≤ c.lastNonce
          · simp only [handleMessage, hc, hn, hack, if_false_bool] at he
            rw [if_pos ⟨hdup, hbyte⟩] at he
            dsimp only at he
            rw [hc] at he
            cases he
            exact Nat.le_refl _
          · simp only [handleMessage, hc, hn, hack, if_false_bool] at he
            rw [if_neg (fun hcon => hdup hcon.1)] at he
            have hh := hstep_emitDecoded now (setConn st { c with lastNonce := nonce })
              { c with lastNonce := nonce } pkt
            obtain ⟨hrin2, hln, hsy⟩ := hh
            have hsy2 := hsy (connSynced_setConn st _)
            have he3 : lookupA (emitDecoded now (setConn st { c with lastNonce := nonce })
                { c with lastNonce := nonce } pkt).1.connections
                (emitDecoded now (setConn st { c with lastNonce := nonce })
                  { c with lastNonce := nonce } pkt).2.1.rinfo = some e := by
              rw [hrin2]; exact he
            rw [hsy2 e he3, hln]
            show c.lastNonce ≤ nonce
            exact Nat.le_of_lt (Nat.lt_of_not_le hdup)

def c4Conn : Connection :=
  { newConnection c1Addr 9 with hasIdentified := true, lastNonce := 5, numMods := 2 }

def c4St : WorkerState :=
  { config := { validVersions := [42] }, connections := [(c1Addr, c4Conn)], lastClientId := 9 }

def c4Dg : Datagram := ⟨[1, 0, 3, 3, 0, 7], .parsed (.reliable 3 [.unhandled 7])⟩

/-- Apply `c4_lastNonce_monotone` at a concrete connection: a stale nonce 3
against last-seen 5 (byte 5 of the datagram not 0xff) is discarded outright,
and the surviving entry's nonce has not decreased. -/
theorem c4_witness :
    lookupA c4St.connections c1Addr = some c4Conn
    ∧ ¬(c4Dg.bytes.get? 5 = some 255)
    ∧ (3 : Nat) ≤ c4Conn.lastNonce
    ∧ handleMessage 10 c4St c1Addr c4Dg = (c4St, [])
    ∧ (∀ e, lookupA (handleMessage 10 c4St c1Addr c4Dg).1.connections c1Addr = some e →
        c4Conn.lastNonce ≤ e.lastNonce) :=
  have hsync : connSynced c4St c4Conn := fun e he => by
    have h2 : (some c4Conn : Option Connection) = some e := by rw [← he]; rfl
    injection h2 with h3
    exact h3.symm
  ⟨rfl, by decide, by decide,
   (c4_lastNonce_monotone 10 c4St c1Addr c4Conn c4Dg rfl rfl hsync (by decide)).1
     (.reliable 3 [.unhandled 7]) 3 rfl rfl rfl (by decide),
   (c4_lastNonce_monotone 10 c4St c1Addr c4Conn c4Dg rfl rfl hsync (by decide)).2⟩

def c4DgMod : Datagram :=
  ⟨[1, 0, 3, 6, 0, 255],
   .parsed (.reliable 3 [.modDecl 0 (("modA").data) (("1.0").data) .both])⟩

/-- C4 counterexample: the code's dedupe exception keys on byte 5 being
0xff, not on nonce 0. A reactor mod-declaration datagram with nonce 3 — not
0 — against last-seen nonce 5 is processed anyway: `lastNonce` drops from 5
to 3 (not non-decreasing), an Acknowledge(3) is sent and the child is
emitted (not "discarded without being handled"). -/
theorem c4_counterexample :
    c4Conn.lastNonce = 5
    ∧ (3 : Nat) ≤ 5
    ∧ ¬((3 : Nat) = 0)
    ∧ c4DgMod.bytes.get? 5 = some 255
    ∧ (lookupA (handleMessage 10 c4St c1Addr c4DgMod).1.connections c1Addr).map
        Connection.lastNonce = some 3
    ∧ ackSendCount c1Addr 3 (handleMessage 10 c4St c1Addr c4DgMod).2 = 1
    ∧ deliverCount (handleMessage 10 c4St c1Addr c4DgMod).2 = 1 := by
  refine ⟨by decide, by decide, by decide, by decide, by decide, by decide, by decide⟩

end Hindenburg
